import Mathlib

/-!
# The fake NEG cloud of `pkg/neg/types/fakes.go`

A shallow embedding of `FakeNetworkEndpointGroupCloud` and its methods.

* A Go `map[string]V` is an `AList` with `String` keys: a finite map without
  duplicate keys. `m[k]` with the comma-ok form is `AList.lookup`, `m[k]` alone
  is `(AList.lookup k m).getD []` (the zero value of a slice is the empty
  slice), `m[k] = v` is `AList.insert` and `delete(m, k)` is `AList.erase`.
* The slices of `NetworkEndpointGroups` hold pointers to NEG objects that belong
  to the callers, and `CreateNetworkEndpointGroup` writes `SelfLink` through the
  pointer it is given. The namespace `Pointers` models this as it stands: a
  memory of objects, a store of addresses, and a create that updates the memory.
  The store outside that namespace holds the objects themselves; it is the store
  of pointers read through the memory as long as no object is created while it
  is already in a slice of the store (`represents_new`, `represents_create`,
  `represents_delete`, `represents_attach_detach`, `represents_reads`).
  Statements about creating one object more than once are made on `Pointers`.
* A method that mutates the receiver returns the new store next to its Go
  `error` result (`none` is `nil`).
* The mutex is not modelled: every method holds it from entry to exit, so a
  method is one atomic step.
-/

namespace NegTypes

/-- The Go type `meta.Version` is a string type. -/
abbrev Version := String

/-- The constant `meta.VersionAlpha`. -/
def VersionAlpha : Version := "alpha"

/-- The constant `meta.VersionGA`. -/
def VersionGA : Version := "ga"

/-- Modelled from the spec: `composite.NetworkEndpointGroup` is declared in
the package `pkg/composite`. The spec gives a NEG the attributes `name` and `selfLink`;
`Description` stands for the further attributes of the composite type, none of
which the store reads or writes. -/
structure NetworkEndpointGroup where
  Name : String
  SelfLink : String
  Description : String
  deriving DecidableEq, Repr

/-- Modelled from the spec: `composite.NetworkEndpoint` is declared in the
package `pkg/composite`. The spec describes an endpoint as a value for one backend target
(address, port, node identity) with full value equality, which is what
`reflect.DeepEqual` on the dereferenced objects decides. -/
structure NetworkEndpoint where
  Instance : String
  IpAddress : String
  Port : Int
  deriving DecidableEq, Repr

/-- Modelled from the spec: `composite.HealthStatusForNetworkEndpoint` is declared
in the package `pkg/composite`; only its absence from a listing matters here. -/
structure HealthStatusForNetworkEndpoint where
  HealthState : String
  deriving DecidableEq, Repr

/-- Modelled from the spec: `composite.NetworkEndpointWithHealthStatus` is declared
in the package `pkg/composite`: an endpoint with its optional health statuses. -/
structure NetworkEndpointWithHealthStatus where
  NetworkEndpoint : NetworkEndpoint
  Healths : List HealthStatusForNetworkEndpoint
  deriving DecidableEq, Repr

/-- Modelled from the spec: `meta.Key` belongs to an external library; it is a
record of three strings, of which the store sets `Zone` only. -/
structure Key where
  Name : String
  Zone : String
  Region : String
  deriving DecidableEq, Repr

/-- The only error value of the file: `NotFoundError`. -/
inductive Error where
  | NotFoundError
  deriving DecidableEq, Repr

deriving instance DecidableEq for Except

/-- The type of `cloud.NewNetworkEndpointGroupsResourceID(project, zone, name).SelfLink(version)`,
a function of an external library which the development takes as a parameter:
arguments are project, zone, name and version. -/
abbrev SelfLinkFn := String → String → String → Version → String

/-- A concrete self-link function, used to evaluate the model on examples. -/
def sampleSelfLink : SelfLinkFn :=
  fun project zone name version =>
    version ++ "/projects/" ++ project ++ "/zones/" ++ zone ++ "/networkEndpointGroups/" ++ name

/-- The struct `FakeNetworkEndpointGroupCloud` without its mutex, with the NEG
objects in place of the pointers to them. -/
structure FakeNetworkEndpointGroupCloud where
  NetworkEndpointGroups : AList (fun _ : String => List NetworkEndpointGroup)
  NetworkEndpoints : AList (fun _ : String => List NetworkEndpoint)
  Subnetwork : String
  Network : String

/-- The constructor `NewFakeNetworkEndpointGroupCloud`: both maps are empty. -/
def NewFakeNetworkEndpointGroupCloud (subnetwork network : String) :
    FakeNetworkEndpointGroupCloud :=
  { Subnetwork := subnetwork, Network := network,
    NetworkEndpointGroups := ∅, NetworkEndpoints := ∅ }

/-- The function `networkEndpointKey`: `fmt.Sprintf("%s-%s", zone, name)`. -/
def networkEndpointKey (name zone : String) : String :=
  zone ++ "-" ++ name

namespace FakeNetworkEndpointGroupCloud

/-- The loop of `GetNetworkEndpointGroup`: the first NEG of the slice whose
`Name` is `name`, when there is one. -/
def getLoop (name : String) : List NetworkEndpointGroup → Option NetworkEndpointGroup
  | [] => none
  | neg :: rest => if neg.Name = name then some neg else getLoop name rest

/-- The method `GetNetworkEndpointGroup`. -/
def GetNetworkEndpointGroup (f : FakeNetworkEndpointGroupCloud) (name zone : String)
    (_version : Version) : Except Error NetworkEndpointGroup :=
  match f.NetworkEndpointGroups.lookup zone with
  | some negs =>
    match getLoop name negs with
    | some neg => .ok neg
    | none => .error Error.NotFoundError
  | none => .error Error.NotFoundError

/-- The method `ListNetworkEndpointGroup`: `f.NetworkEndpointGroups[zone], nil`. -/
def ListNetworkEndpointGroup (f : FakeNetworkEndpointGroupCloud) (zone : String)
    (_version : Version) : Except Error (List NetworkEndpointGroup) :=
  .ok ((f.NetworkEndpointGroups.lookup zone).getD [])

/-- The method `CreateNetworkEndpointGroup`, for an object that is in no slice of
the store yet. The first step writes the self-link into the NEG, the second makes
sure the zone has a slice, the third appends the NEG and the fourth installs an
empty endpoint slice under the key of the pair. For an object that is already
stored the write of the first step is visible in the slices that hold it: see
`Pointers.FakeNetworkEndpointGroupCloud.CreateNetworkEndpointGroup`. -/
def CreateNetworkEndpointGroup (selfLink : SelfLinkFn) (f : FakeNetworkEndpointGroupCloud)
    (neg : NetworkEndpointGroup) (zone : String) :
    FakeNetworkEndpointGroupCloud × Option Error :=
  let neg1 : NetworkEndpointGroup :=
    { neg with SelfLink := selfLink "mock-project" zone neg.Name VersionAlpha }
  let groups1 :=
    match f.NetworkEndpointGroups.lookup zone with
    | some _ => f.NetworkEndpointGroups
    | none => f.NetworkEndpointGroups.insert zone []
  let groups2 := groups1.insert zone ((groups1.lookup zone).getD [] ++ [neg1])
  ({ f with
      NetworkEndpointGroups := groups2
      NetworkEndpoints := f.NetworkEndpoints.insert (networkEndpointKey neg1.Name zone) [] },
    none)

/-- The loop of `DeleteNetworkEndpointGroup`, with its two variables `newList`
and `found`: a NEG named `name` sets `found` and is skipped, any other NEG is
appended to `newList`. -/
def deleteLoop (name : String) :
    List NetworkEndpointGroup → List NetworkEndpointGroup → Bool →
      List NetworkEndpointGroup × Bool
  | [], newList, found => (newList, found)
  | neg :: rest, newList, found =>
    if neg.Name = name then deleteLoop name rest newList true
    else deleteLoop name rest (newList ++ [neg]) found

/-- The method `DeleteNetworkEndpointGroup`. The endpoint entry of the pair is
deleted first, before the zone's slice is searched. -/
def DeleteNetworkEndpointGroup (f : FakeNetworkEndpointGroupCloud) (name zone : String)
    (_version : Version) : FakeNetworkEndpointGroupCloud × Option Error :=
  let f1 : FakeNetworkEndpointGroupCloud :=
    { f with NetworkEndpoints := f.NetworkEndpoints.erase (networkEndpointKey name zone) }
  let negs := (f1.NetworkEndpointGroups.lookup zone).getD []
  let scan := deleteLoop name negs [] false
  if scan.2 = false then (f1, some Error.NotFoundError)
  else ({ f1 with NetworkEndpointGroups := f1.NetworkEndpointGroups.insert zone scan.1 }, none)

/-- The method `AttachNetworkEndpoints`. -/
def AttachNetworkEndpoints (f : FakeNetworkEndpointGroupCloud) (name zone : String)
    (endpoints : List NetworkEndpoint) (_version : Version) :
    FakeNetworkEndpointGroupCloud × Option Error :=
  let key := networkEndpointKey name zone
  ({ f with
      NetworkEndpoints :=
        f.NetworkEndpoints.insert key ((f.NetworkEndpoints.lookup key).getD [] ++ endpoints) },
    none)

/-- The inner loop of `DetachNetworkEndpoints`: is `ne` deeply equal to one of
the endpoints to remove? -/
def detachFound (ne : NetworkEndpoint) : List NetworkEndpoint → Bool
  | [] => false
  | remove :: rest => if ne = remove then true else detachFound ne rest

/-- The outer loop of `DetachNetworkEndpoints` with its variable `newList`. -/
def detachLoop (endpoints : List NetworkEndpoint) :
    List NetworkEndpoint → List NetworkEndpoint → List NetworkEndpoint
  | [], newList => newList
  | ne :: rest, newList =>
    if detachFound ne endpoints = true then detachLoop endpoints rest newList
    else detachLoop endpoints rest (newList ++ [ne])

/-- The method `DetachNetworkEndpoints`. -/
def DetachNetworkEndpoints (f : FakeNetworkEndpointGroupCloud) (name zone : String)
    (endpoints : List NetworkEndpoint) (_version : Version) :
    FakeNetworkEndpointGroupCloud × Option Error :=
  let key := networkEndpointKey name zone
  let newList := detachLoop endpoints ((f.NetworkEndpoints.lookup key).getD []) []
  ({ f with NetworkEndpoints := f.NetworkEndpoints.insert key newList }, none)

/-- The loop of `ListNetworkEndpoints` with its variable `ret`. -/
def listLoop :
    List NetworkEndpoint → List NetworkEndpointWithHealthStatus →
      List NetworkEndpointWithHealthStatus
  | [], ret => ret
  | ne :: rest, ret => listLoop rest (ret ++ [{ NetworkEndpoint := ne, Healths := [] }])

/-- The method `ListNetworkEndpoints`. -/
def ListNetworkEndpoints (f : FakeNetworkEndpointGroupCloud) (name zone : String)
    (_showHealthStatus : Bool) (_version : Version) :
    Except Error (List NetworkEndpointWithHealthStatus) :=
  match f.NetworkEndpoints.lookup (networkEndpointKey name zone) with
  | none => .error Error.NotFoundError
  | some nes => .ok (listLoop nes [])

/-- The map returned by `AggregatedListNetworkEndpointGroup`. Its Go type is
`map[*meta.Key]*composite.NetworkEndpointGroup`: the keys are pointers, compared
by address, so the model keys the map by the address of the key object and
keeps the content of that object next to the NEG. -/
abbrev AggregatedResult := AList (fun _ : Nat => Key × NetworkEndpointGroup)

/-- The inner loop of `AggregatedListNetworkEndpointGroup` over the NEGs of one
zone. The state is the next free address and the result map: each round
evaluates `&meta.Key{Zone: zone}`, which allocates a new key object (at the
next free address), and stores the NEG under that pointer. -/
def aggregateLoop (zone : String) :
    List NetworkEndpointGroup → Nat × AggregatedResult → Nat × AggregatedResult
  | [], st => st
  | neg :: rest, st =>
    aggregateLoop zone rest
      (st.1 + 1, st.2.insert st.1 ({ Name := "", Zone := zone, Region := "" }, neg))

/-- The outer loop of `AggregatedListNetworkEndpointGroup` over the entries of
`f.NetworkEndpointGroups`, in the order the map iteration visits them. -/
def aggregateZones :
    List (Sigma fun _ : String => List NetworkEndpointGroup) →
      Nat × AggregatedResult → Nat × AggregatedResult
  | [], st => st
  | entry :: rest, st => aggregateZones rest (aggregateLoop entry.1 entry.2 st)

/-- The method `AggregatedListNetworkEndpointGroup`, for the iteration order of
the entries list and an allocator that starts at address 0. -/
def AggregatedListNetworkEndpointGroup (f : FakeNetworkEndpointGroupCloud)
    (_version : Version) : Except Error AggregatedResult :=
  .ok (aggregateZones f.NetworkEndpointGroups.entries (0, ∅)).2

end FakeNetworkEndpointGroupCloud

/-- The NEG sequence of a zone: the value of `f.NetworkEndpointGroups[zone]`. -/
def zoneNegs (f : FakeNetworkEndpointGroupCloud) (zone : String) : List NetworkEndpointGroup :=
  (f.NetworkEndpointGroups.lookup zone).getD []

/-- The stored endpoint collection of a pair: `f.NetworkEndpoints[networkEndpointKey(name, zone)]`
with the comma-ok form. -/
def storedEndpoints (f : FakeNetworkEndpointGroupCloud) (name zone : String) :
    Option (List NetworkEndpoint) :=
  f.NetworkEndpoints.lookup (networkEndpointKey name zone)

/-- The NEGs of an aggregated result, one for each entry of the map. -/
def aggregatedNegs (result : FakeNetworkEndpointGroupCloud.AggregatedResult) :
    List NetworkEndpointGroup :=
  result.entries.map fun entry => entry.2.2

/-- One call of a mutating method of the store, with its arguments. -/
inductive Op where
  | create (neg : NetworkEndpointGroup) (zone : String)
  | delete (name zone : String) (version : Version)
  | attach (name zone : String) (endpoints : List NetworkEndpoint) (version : Version)
  | detach (name zone : String) (endpoints : List NetworkEndpoint) (version : Version)
  deriving DecidableEq, Repr

/-- The store after one call. -/
def Op.apply (selfLink : SelfLinkFn) (f : FakeNetworkEndpointGroupCloud) :
    Op → FakeNetworkEndpointGroupCloud
  | .create neg zone => (f.CreateNetworkEndpointGroup selfLink neg zone).1
  | .delete name zone version => (f.DeleteNetworkEndpointGroup name zone version).1
  | .attach name zone endpoints version =>
    (f.AttachNetworkEndpoints name zone endpoints version).1
  | .detach name zone endpoints version =>
    (f.DetachNetworkEndpoints name zone endpoints version).1

/-- The store after a sequence of calls, first call first. -/
def runOps (selfLink : SelfLinkFn) (f : FakeNetworkEndpointGroupCloud) :
    List Op → FakeNetworkEndpointGroupCloud
  | [] => f
  | op :: rest => runOps selfLink (op.apply selfLink f) rest

/-- The caller discipline "create only what is absent": a create is issued for
a zone that holds no NEG of the new NEG's name; other calls are not restricted. -/
def Op.createsAbsent (f : FakeNetworkEndpointGroupCloud) : Op → Bool
  | .create neg zone => (zoneNegs f zone).all fun m => decide (m.Name ≠ neg.Name)
  | _ => true

/-- Every create of the sequence is issued under the discipline "create only
what is absent", each at the store the calls before it have produced. -/
def createsAbsentAll (selfLink : SelfLinkFn) (f : FakeNetworkEndpointGroupCloud) :
    List Op → Bool
  | [] => true
  | op :: rest => op.createsAbsent f && createsAbsentAll selfLink (op.apply selfLink f) rest

/-- The store after a sequence of `AttachNetworkEndpoints` calls on one pair. -/
def attachAll (f : FakeNetworkEndpointGroupCloud) (name zone : String) (version : Version) :
    List (List NetworkEndpoint) → FakeNetworkEndpointGroupCloud
  | [] => f
  | endpoints :: rest =>
    attachAll (f.AttachNetworkEndpoints name zone endpoints version).1 name zone version rest

/-- The store after a sequence of `DetachNetworkEndpoints` calls on one pair. -/
def detachAll (f : FakeNetworkEndpointGroupCloud) (name zone : String) (version : Version) :
    List (List NetworkEndpoint) → FakeNetworkEndpointGroupCloud
  | [] => f
  | endpoints :: rest =>
    detachAll (f.DetachNetworkEndpoints name zone endpoints version).1 name zone version rest

/-- The wrapping `ListNetworkEndpoints` applies to a stored endpoint: the
endpoint without health status. -/
def withoutHealth (ne : NetworkEndpoint) : NetworkEndpointWithHealthStatus :=
  { NetworkEndpoint := ne, Healths := [] }

/-- A new store, used to evaluate the model on examples. -/
def sampleStore : FakeNetworkEndpointGroupCloud :=
  NewFakeNetworkEndpointGroupCloud "subnetwork" "network"

/-- A NEG named "neg-a", used to evaluate the model on examples. -/
def sampleNeg : NetworkEndpointGroup :=
  { Name := "neg-a", SelfLink := "", Description := "" }

/-- An endpoint, used to evaluate the model on examples. -/
def sampleEndpoint1 : NetworkEndpoint :=
  { Instance := "instance1", IpAddress := "10.0.0.1", Port := 80 }

/-- Another endpoint, used to evaluate the model on examples. -/
def sampleEndpoint2 : NetworkEndpoint :=
  { Instance := "instance2", IpAddress := "10.0.0.2", Port := 80 }

/-- The constant `TestZone1`. -/
def TestZone1 : String := "zone1"

/-- The constant `TestZone2`. -/
def TestZone2 : String := "zone2"

/-- The constant `TestInstance1`. -/
def TestInstance1 : String := "instance1"

/-- The constant `TestInstance2`. -/
def TestInstance2 : String := "instance2"

/-- The constant `TestInstance3`. -/
def TestInstance3 : String := "instance3"

/-- The constant `TestInstance4`. -/
def TestInstance4 : String := "instance4"

/-- The constant `TestInstance5`. -/
def TestInstance5 : String := "instance5"

/-- The constant `TestInstance6`. -/
def TestInstance6 : String := "instance6"

/-- The struct `fakeZoneGetter`. A `sets.String` is given by the list of its
members: the resolver only asks `Has`, which is membership in that list. -/
structure fakeZoneGetter where
  zoneInstanceMap : AList (fun _ : String => List String)

/-- The constructor `NewFakeZoneGetter` with its two zones. -/
def NewFakeZoneGetter : fakeZoneGetter :=
  { zoneInstanceMap :=
      (AList.insert TestZone2 [TestInstance3, TestInstance4, TestInstance5, TestInstance6]
        (∅ : AList (fun _ : String => List String))).insert
        TestZone1 [TestInstance1, TestInstance2] }

/-- The loop of `GetZoneForNode` over the entries of the map, in the order the
map iteration visits them: the first zone whose set has the node. -/
def getZoneLoop (name : String) :
    List (Sigma fun _ : String => List String) → Except Error String
  | [] => .error Error.NotFoundError
  | entry :: rest => if name ∈ entry.2 then .ok entry.1 else getZoneLoop name rest

/-- The method `GetZoneForNode`, for the iteration order of the entries list. -/
def fakeZoneGetter.GetZoneForNode (f : fakeZoneGetter) (name : String) : Except Error String :=
  getZoneLoop name f.zoneInstanceMap.entries

/-- The key content and the NEG of each entry of an aggregated result. -/
def aggregatedEntries (result : FakeNetworkEndpointGroupCloud.AggregatedResult) :
    List (Key × NetworkEndpointGroup) :=
  result.entries.map fun entry => entry.2

/-- The store after a sequence of `CreateNetworkEndpointGroup` calls in one zone. -/
def createAll (selfLink : SelfLinkFn) (f : FakeNetworkEndpointGroupCloud) (zone : String) :
    List NetworkEndpointGroup → FakeNetworkEndpointGroupCloud
  | [] => f
  | neg :: rest =>
    createAll selfLink (f.CreateNetworkEndpointGroup selfLink neg zone).1 zone rest

/-- A NEG named "neg-b", used to evaluate the model on examples. -/
def sampleNegB : NetworkEndpointGroup :=
  { Name := "neg-b", SelfLink := "", Description := "" }

/-- The value of a Go pointer `*composite.NetworkEndpointGroup`: the address of a
NEG object. -/
abbrev Addr := Nat

/-- The memory that holds the NEG objects: the object at each address. The objects
belong to the callers of the store, which keeps their addresses. -/
abbrev Memory := Addr → NetworkEndpointGroup

namespace Pointers

/-- The struct `FakeNetworkEndpointGroupCloud` as the source declares it: the
slices of `NetworkEndpointGroups` hold pointers to NEG objects. The mutex is left
out. -/
structure FakeNetworkEndpointGroupCloud where
  NetworkEndpointGroups : AList (fun _ : String => List Addr)
  NetworkEndpoints : AList (fun _ : String => List NetworkEndpoint)
  Subnetwork : String
  Network : String

/-- The constructor `NewFakeNetworkEndpointGroupCloud`: both maps are empty. -/
def NewFakeNetworkEndpointGroupCloud (subnetwork network : String) :
    FakeNetworkEndpointGroupCloud :=
  { Subnetwork := subnetwork, Network := network,
    NetworkEndpointGroups := ∅, NetworkEndpoints := ∅ }

namespace FakeNetworkEndpointGroupCloud

/-- The loop of `GetNetworkEndpointGroup`: the first pointer of the slice whose
object has the name `name`. -/
def getLoop (mem : Memory) (name : String) : List Addr → Option Addr
  | [] => none
  | neg :: rest => if (mem neg).Name = name then some neg else getLoop mem name rest

/-- The method `GetNetworkEndpointGroup`: it returns the stored pointer. -/
def GetNetworkEndpointGroup (f : FakeNetworkEndpointGroupCloud) (mem : Memory)
    (name zone : String) (_version : Version) : Except Error Addr :=
  match f.NetworkEndpointGroups.lookup zone with
  | some negs =>
    match getLoop mem name negs with
    | some neg => .ok neg
    | none => .error Error.NotFoundError
  | none => .error Error.NotFoundError

/-- The method `ListNetworkEndpointGroup`: `f.NetworkEndpointGroups[zone], nil`. -/
def ListNetworkEndpointGroup (f : FakeNetworkEndpointGroupCloud) (zone : String)
    (_version : Version) : Except Error (List Addr) :=
  .ok ((f.NetworkEndpointGroups.lookup zone).getD [])

/-- The method `CreateNetworkEndpointGroup`. `neg.SelfLink = ...` writes into the
object the caller's pointer refers to, whether or not that object is already
stored; then the zone gets a slice if it has none, the pointer is appended to the
slice and an empty endpoint slice is installed under the key of the pair. The
result is the memory and the store after the call, and the error. -/
def CreateNetworkEndpointGroup (selfLink : SelfLinkFn) (f : FakeNetworkEndpointGroupCloud)
    (mem : Memory) (neg : Addr) (zone : String) :
    Memory × FakeNetworkEndpointGroupCloud × Option Error :=
  let mem1 : Memory :=
    Function.update mem neg
      { mem neg with SelfLink := selfLink "mock-project" zone (mem neg).Name VersionAlpha }
  let groups1 :=
    match f.NetworkEndpointGroups.lookup zone with
    | some _ => f.NetworkEndpointGroups
    | none => f.NetworkEndpointGroups.insert zone []
  let groups2 := groups1.insert zone ((groups1.lookup zone).getD [] ++ [neg])
  (mem1,
    { f with
      NetworkEndpointGroups := groups2
      NetworkEndpoints := f.NetworkEndpoints.insert (networkEndpointKey (mem1 neg).Name zone) [] },
    none)

/-- The loop of `DeleteNetworkEndpointGroup` with its variables `newList` and
`found`, on pointers. -/
def deleteLoop (mem : Memory) (name : String) :
    List Addr → List Addr → Bool → List Addr × Bool
  | [], newList, found => (newList, found)
  | neg :: rest, newList, found =>
    if (mem neg).Name = name then deleteLoop mem name rest newList true
    else deleteLoop mem name rest (newList ++ [neg]) found

/-- The method `DeleteNetworkEndpointGroup`; it reads the objects and writes none. -/
def DeleteNetworkEndpointGroup (f : FakeNetworkEndpointGroupCloud) (mem : Memory)
    (name zone : String) (_version : Version) : FakeNetworkEndpointGroupCloud × Option Error :=
  let f1 : FakeNetworkEndpointGroupCloud :=
    { f with NetworkEndpoints := f.NetworkEndpoints.erase (networkEndpointKey name zone) }
  let negs := (f1.NetworkEndpointGroups.lookup zone).getD []
  let scan := deleteLoop mem name negs [] false
  if scan.2 = false then (f1, some Error.NotFoundError)
  else ({ f1 with NetworkEndpointGroups := f1.NetworkEndpointGroups.insert zone scan.1 }, none)

/-- The method `AttachNetworkEndpoints`; it touches no NEG. -/
def AttachNetworkEndpoints (f : FakeNetworkEndpointGroupCloud) (name zone : String)
    (endpoints : List NetworkEndpoint) (_version : Version) :
    FakeNetworkEndpointGroupCloud × Option Error :=
  let key := networkEndpointKey name zone
  ({ f with
      NetworkEndpoints :=
        f.NetworkEndpoints.insert key ((f.NetworkEndpoints.lookup key).getD [] ++ endpoints) },
    none)

/-- The method `DetachNetworkEndpoints`; it touches no NEG. -/
def DetachNetworkEndpoints (f : FakeNetworkEndpointGroupCloud) (name zone : String)
    (endpoints : List NetworkEndpoint) (_version : Version) :
    FakeNetworkEndpointGroupCloud × Option Error :=
  let key := networkEndpointKey name zone
  let newList :=
    NegTypes.FakeNetworkEndpointGroupCloud.detachLoop endpoints
      ((f.NetworkEndpoints.lookup key).getD []) []
  ({ f with NetworkEndpoints := f.NetworkEndpoints.insert key newList }, none)

end FakeNetworkEndpointGroupCloud

/-- The pointers stored for a zone: the value of `f.NetworkEndpointGroups[zone]`. -/
def zonePointers (f : FakeNetworkEndpointGroupCloud) (zone : String) : List Addr :=
  (f.NetworkEndpointGroups.lookup zone).getD []

/-- One call of a mutating method of the store, the NEG of a create given by its
pointer. -/
inductive Op where
  | create (neg : Addr) (zone : String)
  | delete (name zone : String) (version : Version)
  | attach (name zone : String) (endpoints : List NetworkEndpoint) (version : Version)
  | detach (name zone : String) (endpoints : List NetworkEndpoint) (version : Version)
  deriving DecidableEq, Repr

/-- The memory and the store after one call. -/
def Op.apply (selfLink : SelfLinkFn) (st : Memory × FakeNetworkEndpointGroupCloud) :
    Op → Memory × FakeNetworkEndpointGroupCloud
  | .create neg zone =>
    ((st.2.CreateNetworkEndpointGroup selfLink st.1 neg zone).1,
      (st.2.CreateNetworkEndpointGroup selfLink st.1 neg zone).2.1)
  | .delete name zone version => (st.1, (st.2.DeleteNetworkEndpointGroup st.1 name zone version).1)
  | .attach name zone endpoints version =>
    (st.1, (st.2.AttachNetworkEndpoints name zone endpoints version).1)
  | .detach name zone endpoints version =>
    (st.1, (st.2.DetachNetworkEndpoints name zone endpoints version).1)

/-- The memory and the store after a sequence of calls, first call first. -/
def runOps (selfLink : SelfLinkFn) (st : Memory × FakeNetworkEndpointGroupCloud) :
    List Op → Memory × FakeNetworkEndpointGroupCloud
  | [] => st
  | op :: rest => runOps selfLink (op.apply selfLink st) rest

/-- The pointers the creates of a sequence of calls put into a zone, in the order
of the calls. -/
def createdIn (zone : String) : List Op → List Addr
  | [] => []
  | .create neg z :: rest => if z = zone then neg :: createdIn zone rest else createdIn zone rest
  | _ :: rest => createdIn zone rest

/-- Is the call a delete? -/
def Op.isDelete : Op → Bool
  | .delete _ _ _ => true
  | _ => false

/-- The store of values `view` is the store of pointers `f` read through the
memory `mem`: the same endpoint map and configuration, and for every zone the
objects the zone's pointers refer to. -/
def Represents (mem : Memory) (f : FakeNetworkEndpointGroupCloud)
    (view : NegTypes.FakeNetworkEndpointGroupCloud) : Prop :=
  view.NetworkEndpoints = f.NetworkEndpoints ∧ view.Subnetwork = f.Subnetwork ∧
    view.Network = f.Network ∧
    ∀ zone : String,
      view.NetworkEndpointGroups.lookup zone =
        (f.NetworkEndpointGroups.lookup zone).map (List.map mem)

end Pointers

/-- A memory with a NEG named "neg-a" at address 0 and NEGs named "neg-b" at the
other addresses, used to evaluate the model on examples. -/
def sampleMemory : Memory :=
  fun a => if a = 0 then { Name := "neg-a", SelfLink := "", Description := "" }
    else { Name := "neg-b", SelfLink := "", Description := "" }

/-- The memory and the store after the NEG object at address 0 was created in
"zone2", used to evaluate the model on examples. -/
def sampleCreatedOnce : Memory × Pointers.FakeNetworkEndpointGroupCloud :=
  Pointers.runOps sampleSelfLink
    (sampleMemory, Pointers.NewFakeNetworkEndpointGroupCloud "subnetwork" "network")
    [Pointers.Op.create 0 "zone2"]

/-- The memory and the store after the NEG object at address 0 was created in
"zone2" and then in "zone1", used to evaluate the model on examples. -/
def sampleCreatedTwice : Memory × Pointers.FakeNetworkEndpointGroupCloud :=
  Pointers.runOps sampleSelfLink
    (sampleMemory, Pointers.NewFakeNetworkEndpointGroupCloud "subnetwork" "network")
    [Pointers.Op.create 0 "zone2", Pointers.Op.create 0 "zone1"]

/-- The memory and the store after the NEG object at address 1 was created in
"zone2", used to evaluate the model on examples. -/
def sampleOtherCreated : Memory × Pointers.FakeNetworkEndpointGroupCloud :=
  Pointers.runOps sampleSelfLink
    (sampleMemory, Pointers.NewFakeNetworkEndpointGroupCloud "subnetwork" "network")
    [Pointers.Op.create 1 "zone2"]

/-- In each zone at most one NEG carries a given name. -/
def UniqueNames (f : FakeNetworkEndpointGroupCloud) : Prop :=
  ∀ zone name : String, (zoneNegs f zone).countP (fun m => decide (m.Name = name)) ≤ 1

/-- Every address in use in the result map lies below the next free address. -/
def AddressesBelow (st : Nat × FakeNetworkEndpointGroupCloud.AggregatedResult) : Prop :=
  ∀ k, k ∈ st.2 → k < st.1

open FakeNetworkEndpointGroupCloud

/-! ## Lemmas on the loops and the maps -/

theorem getLoop_eq_none_iff (name : String) (negs : List NetworkEndpointGroup) :
    getLoop name negs = none ↔ ∀ neg ∈ negs, neg.Name ≠ name := by
  induction negs with
  | nil => simp [getLoop]
  | cons a rest ih =>
    by_cases h : a.Name = name
    · simp [getLoop, h]
    · simp [getLoop, h, ih]

theorem getLoop_eq_some (name : String) (negs : List NetworkEndpointGroup)
    (neg : NetworkEndpointGroup) (h : getLoop name negs = some neg) :
    ∃ pre post, negs = pre ++ neg :: post ∧ neg.Name = name ∧ ∀ m ∈ pre, m.Name ≠ name := by
  induction negs with
  | nil => simp [getLoop] at h
  | cons a rest ih =>
    by_cases ha : a.Name = name
    · simp [getLoop, ha] at h
      subst h
      exact ⟨[], rest, rfl, ha, by simp⟩
    · simp [getLoop, ha] at h
      obtain ⟨pre, post, h1, h2, h3⟩ := ih h
      refine ⟨a :: pre, post, by simp [h1], h2, ?_⟩
      intro m hm
      rcases List.mem_cons.1 hm with rfl | hm
      · exact ha
      · exact h3 m hm

theorem getNetworkEndpointGroup_eq (f : FakeNetworkEndpointGroupCloud) (name zone : String)
    (version : Version) :
    f.GetNetworkEndpointGroup name zone version =
      match getLoop name (zoneNegs f zone) with
      | some neg => .ok neg
      | none => .error Error.NotFoundError := by
  unfold GetNetworkEndpointGroup zoneNegs
  cases f.NetworkEndpointGroups.lookup zone <;> simp [getLoop]

theorem zoneNegs_create (selfLink : SelfLinkFn) (f : FakeNetworkEndpointGroupCloud)
    (neg : NetworkEndpointGroup) (z : String) :
    zoneNegs (f.CreateNetworkEndpointGroup selfLink neg z).1 z =
      zoneNegs f z ++ [{ neg with SelfLink := selfLink "mock-project" z neg.Name VersionAlpha }] := by
  unfold CreateNetworkEndpointGroup zoneNegs
  cases h : f.NetworkEndpointGroups.lookup z <;> simp [AList.lookup_insert, h]

theorem deleteLoop_eq (name : String) (negs newList : List NetworkEndpointGroup) (found : Bool) :
    deleteLoop name negs newList found =
      (newList ++ negs.filter (fun m => decide (m.Name ≠ name)),
        found || negs.any (fun m => decide (m.Name = name))) := by
  induction negs generalizing newList found with
  | nil => simp [deleteLoop]
  | cons a rest ih =>
    by_cases h : a.Name = name
    · simp [deleteLoop, h, ih]
    · simp [deleteLoop, h, ih]

theorem deleteNetworkEndpointGroup_eq (f : FakeNetworkEndpointGroupCloud) (name zone : String)
    (version : Version) :
    f.DeleteNetworkEndpointGroup name zone version =
      if (zoneNegs f zone).any (fun m => decide (m.Name = name)) = true then
        ({ f with
            NetworkEndpoints := f.NetworkEndpoints.erase (networkEndpointKey name zone)
            NetworkEndpointGroups :=
              f.NetworkEndpointGroups.insert zone
                ((zoneNegs f zone).filter (fun m => decide (m.Name ≠ name))) }, none)
      else
        ({ f with NetworkEndpoints := f.NetworkEndpoints.erase (networkEndpointKey name zone) },
          some Error.NotFoundError) := by
  unfold DeleteNetworkEndpointGroup zoneNegs
  simp only [deleteLoop_eq, List.nil_append, Bool.false_or]
  by_cases h : (List.any ((f.NetworkEndpointGroups.lookup zone).getD [])
      (fun m => decide (m.Name = name))) = true
  · simp [h]
  · simp [h]

theorem listLoop_eq (nes : List NetworkEndpoint) (ret : List NetworkEndpointWithHealthStatus) :
    listLoop nes ret = ret ++ nes.map withoutHealth := by
  induction nes generalizing ret with
  | nil => simp [listLoop]
  | cons a rest ih => simp [listLoop, ih, withoutHealth]

theorem listNetworkEndpoints_eq (f : FakeNetworkEndpointGroupCloud) (name zone : String)
    (showHealthStatus : Bool) (version : Version) :
    f.ListNetworkEndpoints name zone showHealthStatus version =
      match storedEndpoints f name zone with
      | none => .error Error.NotFoundError
      | some nes => .ok (nes.map withoutHealth) := by
  unfold ListNetworkEndpoints storedEndpoints
  cases f.NetworkEndpoints.lookup (networkEndpointKey name zone) <;> simp [listLoop_eq]

theorem storedEndpoints_create (selfLink : SelfLinkFn) (f : FakeNetworkEndpointGroupCloud)
    (neg : NetworkEndpointGroup) (zone : String) :
    storedEndpoints (f.CreateNetworkEndpointGroup selfLink neg zone).1 neg.Name zone = some [] := by
  simp [storedEndpoints, CreateNetworkEndpointGroup, AList.lookup_insert]

theorem detachFound_eq (ne : NetworkEndpoint) (endpoints : List NetworkEndpoint) :
    detachFound ne endpoints = decide (ne ∈ endpoints) := by
  induction endpoints with
  | nil => simp [detachFound]
  | cons r rest ih =>
    by_cases h : ne = r
    · simp [detachFound, h]
    · simp [detachFound, h, ih]

theorem detachLoop_eq (endpoints nes newList : List NetworkEndpoint) :
    detachLoop endpoints nes newList =
      newList ++ nes.filter (fun ne => decide (ne ∉ endpoints)) := by
  induction nes generalizing newList with
  | nil => simp [detachLoop]
  | cons a rest ih =>
    by_cases h : a ∈ endpoints
    · simp [detachLoop, detachFound_eq, h, ih]
    · simp [detachLoop, detachFound_eq, h, ih]

theorem storedEndpoints_attach (f : FakeNetworkEndpointGroupCloud) (name zone : String)
    (endpoints : List NetworkEndpoint) (version : Version) :
    storedEndpoints (f.AttachNetworkEndpoints name zone endpoints version).1 name zone =
      some ((storedEndpoints f name zone).getD [] ++ endpoints) := by
  simp [storedEndpoints, AttachNetworkEndpoints, AList.lookup_insert]

theorem storedEndpoints_detach (f : FakeNetworkEndpointGroupCloud) (name zone : String)
    (endpoints : List NetworkEndpoint) (version : Version) :
    storedEndpoints (f.DetachNetworkEndpoints name zone endpoints version).1 name zone =
      some (((storedEndpoints f name zone).getD []).filter
        (fun ne => decide (ne ∉ endpoints))) := by
  simp [storedEndpoints, DetachNetworkEndpoints, AList.lookup_insert, detachLoop_eq]

theorem storedEndpoints_attachAll (name zone : String) (version : Version)
    (attaches : List (List NetworkEndpoint)) (f : FakeNetworkEndpointGroupCloud)
    (nes : List NetworkEndpoint) (h : storedEndpoints f name zone = some nes) :
    storedEndpoints (attachAll f name zone version attaches) name zone =
      some (nes ++ attaches.flatten) := by
  induction attaches generalizing f nes with
  | nil => simpa [attachAll] using h
  | cons a rest ih =>
    have step := storedEndpoints_attach f name zone a version
    rw [h] at step
    simpa [attachAll] using ih _ _ step

theorem storedEndpoints_detachAll (name zone : String) (version : Version)
    (detaches : List (List NetworkEndpoint)) (f : FakeNetworkEndpointGroupCloud)
    (nes : List NetworkEndpoint) (h : storedEndpoints f name zone = some nes) :
    storedEndpoints (detachAll f name zone version detaches) name zone =
      some (nes.filter (fun ne => decide (ne ∉ detaches.flatten))) := by
  induction detaches generalizing f nes with
  | nil => simpa [detachAll] using h
  | cons d rest ih =>
    have step := storedEndpoints_detach f name zone d version
    rw [h] at step
    rw [detachAll, ih _ _ step]
    simp only [Option.getD_some, List.filter_filter, List.flatten_cons, Option.some.injEq]
    apply List.filter_congr
    intro ne _
    by_cases h1 : ne ∈ d <;> by_cases h2 : ne ∈ rest.flatten <;> simp [h1, h2]

theorem zoneNegs_create_other (selfLink : SelfLinkFn) (f : FakeNetworkEndpointGroupCloud)
    (neg : NetworkEndpointGroup) (z zone : String) (h : zone ≠ z) :
    zoneNegs (f.CreateNetworkEndpointGroup selfLink neg z).1 zone = zoneNegs f zone := by
  unfold CreateNetworkEndpointGroup zoneNegs
  cases hz : f.NetworkEndpointGroups.lookup z <;> simp [AList.lookup_insert_ne h]

theorem zoneNegs_delete (f : FakeNetworkEndpointGroupCloud) (name z : String)
    (version : Version) :
    zoneNegs (f.DeleteNetworkEndpointGroup name z version).1 z =
      (zoneNegs f z).filter (fun m => decide (m.Name ≠ name)) := by
  rw [deleteNetworkEndpointGroup_eq]
  by_cases h : (zoneNegs f z).any (fun m => decide (m.Name = name)) = true
  · rw [if_pos h]
    simp [zoneNegs, AList.lookup_insert]
  · rw [if_neg h]
    symm
    show List.filter _ (zoneNegs f z) = zoneNegs f z
    rw [List.filter_eq_self]
    intro m hm
    simp only [List.any_eq_true, decide_eq_true_eq, not_exists, not_and] at h
    simpa using h m hm

theorem zoneNegs_delete_other (f : FakeNetworkEndpointGroupCloud) (name z zone : String)
    (version : Version) (h : zone ≠ z) :
    zoneNegs (f.DeleteNetworkEndpointGroup name z version).1 zone = zoneNegs f zone := by
  rw [deleteNetworkEndpointGroup_eq]
  by_cases hany : (zoneNegs f z).any (fun m => decide (m.Name = name)) = true
  · rw [if_pos hany]
    simp [zoneNegs, AList.lookup_insert_ne h]
  · rw [if_neg hany]
    rfl

theorem uniqueNames_new (subnetwork network : String) :
    UniqueNames (NewFakeNetworkEndpointGroupCloud subnetwork network) := by
  intro zone name
  simp [zoneNegs, NewFakeNetworkEndpointGroupCloud]

theorem uniqueNames_apply (selfLink : SelfLinkFn) (f : FakeNetworkEndpointGroupCloud) (op : Op)
    (hf : UniqueNames f) (hop : op.createsAbsent f = true) :
    UniqueNames (op.apply selfLink f) := by
  intro zone name
  cases op with
  | create neg z =>
    simp only [Op.apply]
    by_cases hz : zone = z
    · subst hz
      rw [zoneNegs_create, List.countP_append]
      by_cases hname : neg.Name = name
      · have hzero : (zoneNegs f zone).countP (fun m => decide (m.Name = name)) = 0 := by
          rw [List.countP_eq_zero]
          intro m hm
          simp only [Op.createsAbsent, List.all_eq_true, decide_eq_true_eq] at hop
          simpa [hname] using hop m hm
        simp [hzero, hname]
      · have := hf zone name
        simpa [hname] using this
    · rw [zoneNegs_create_other selfLink f neg z zone hz]
      exact hf zone name
  | delete n z version =>
    simp only [Op.apply]
    by_cases hz : zone = z
    · subst hz
      rw [zoneNegs_delete]
      exact le_trans (List.Sublist.countP_le _ (List.filter_sublist _)) (hf zone name)
    · rw [zoneNegs_delete_other f n z zone version hz]
      exact hf zone name
  | attach n z endpoints version => exact hf zone name
  | detach n z endpoints version => exact hf zone name

theorem uniqueNames_runOps (selfLink : SelfLinkFn) (ops : List Op)
    (f : FakeNetworkEndpointGroupCloud) (hf : UniqueNames f)
    (hops : createsAbsentAll selfLink f ops = true) :
    UniqueNames (runOps selfLink f ops) := by
  induction ops generalizing f with
  | nil => exact hf
  | cons op rest ih =>
    simp only [createsAbsentAll, Bool.and_eq_true] at hops
    exact ih _ (uniqueNames_apply selfLink f op hf hops.1) hops.2

theorem aggregateLoop_spec (zone : String) (negs : List NetworkEndpointGroup)
    (st : Nat × AggregatedResult) (h : AddressesBelow st) :
    AddressesBelow (aggregateLoop zone negs st) ∧
    (aggregatedNegs (aggregateLoop zone negs st).2).Perm (aggregatedNegs st.2 ++ negs) := by
  induction negs generalizing st with
  | nil => exact ⟨h, by simp [aggregateLoop]⟩
  | cons neg rest ih =>
    have hfresh : st.1 ∉ st.2 := fun hmem => lt_irrefl _ (h _ hmem)
    have hnext : AddressesBelow
        (st.1 + 1, st.2.insert st.1 ({ Name := "", Zone := zone, Region := "" }, neg)) := by
      intro k hk
      rcases (AList.mem_insert _).1 hk with rfl | hk
      · exact Nat.lt_succ_self _
      · exact Nat.lt_succ_of_lt (h _ hk)
    obtain ⟨h1, h2⟩ := ih _ hnext
    refine ⟨h1, ?_⟩
    have hentries : aggregatedNegs
        (st.2.insert st.1 ({ Name := "", Zone := zone, Region := "" }, neg)) =
        neg :: aggregatedNegs st.2 := by
      unfold aggregatedNegs
      rw [AList.insert_entries_of_neg hfresh, List.map_cons]
    rw [aggregateLoop]
    refine h2.trans ?_
    rw [hentries]
    exact List.perm_middle.symm

theorem aggregateZones_spec
    (entries : List (Sigma fun _ : String => List NetworkEndpointGroup))
    (st : Nat × AggregatedResult) (h : AddressesBelow st) :
    AddressesBelow (aggregateZones entries st) ∧
    (aggregatedNegs (aggregateZones entries st).2).Perm
      (aggregatedNegs st.2 ++ entries.flatMap fun entry => entry.2) := by
  induction entries generalizing st with
  | nil => exact ⟨h, by simp [aggregateZones]⟩
  | cons entry rest ih =>
    obtain ⟨h1, h2⟩ := aggregateLoop_spec entry.1 entry.2 st h
    obtain ⟨h3, h4⟩ := ih _ h1
    refine ⟨h3, ?_⟩
    rw [aggregateZones]
    refine h4.trans ?_
    rw [List.flatMap_cons, ← List.append_assoc]
    exact List.Perm.append_right _ h2

theorem addressesBelow_empty (base : Nat) : AddressesBelow (base, ∅) := by
  intro k hk
  exact absurd hk (AList.not_mem_empty k)

theorem keys_flatMap_zoneNegs (f : FakeNetworkEndpointGroupCloud) :
    f.NetworkEndpointGroups.keys.flatMap (zoneNegs f) =
      f.NetworkEndpointGroups.entries.flatMap fun entry => entry.2 := by
  unfold AList.keys List.keys
  rw [List.flatMap_map]
  apply List.flatMap_congr
  intro entry hentry
  have hlookup : f.NetworkEndpointGroups.lookup entry.1 = some entry.2 :=
    List.mem_dlookup f.NetworkEndpointGroups.nodupKeys hentry
  simp [zoneNegs, hlookup]

theorem zoneNegs_of_not_mem (f : FakeNetworkEndpointGroupCloud) (zone : String)
    (h : zone ∉ f.NetworkEndpointGroups.keys) : zoneNegs f zone = [] := by
  have hnone : f.NetworkEndpointGroups.lookup zone = none :=
    AList.lookup_eq_none.2 (fun hmem => h (AList.mem_keys.1 hmem))
  simp [zoneNegs, hnone]

theorem aggregateLoop_entries (zone : String) (negs : List NetworkEndpointGroup)
    (st : Nat × AggregatedResult) (h : AddressesBelow st) :
    AddressesBelow (aggregateLoop zone negs st) ∧
    (aggregatedEntries (aggregateLoop zone negs st).2).Perm
      (aggregatedEntries st.2 ++
        negs.map fun neg => (({ Name := "", Zone := zone, Region := "" } : Key), neg)) := by
  induction negs generalizing st with
  | nil => exact ⟨h, by simp [aggregateLoop]⟩
  | cons neg rest ih =>
    have hfresh : st.1 ∉ st.2 := fun hmem => lt_irrefl _ (h _ hmem)
    have hnext : AddressesBelow
        (st.1 + 1, st.2.insert st.1 ({ Name := "", Zone := zone, Region := "" }, neg)) := by
      intro k hk
      rcases (AList.mem_insert _).1 hk with rfl | hk
      · exact Nat.lt_succ_self _
      · exact Nat.lt_succ_of_lt (h _ hk)
    obtain ⟨h1, h2⟩ := ih _ hnext
    refine ⟨h1, ?_⟩
    have hentries : aggregatedEntries
        (st.2.insert st.1 ({ Name := "", Zone := zone, Region := "" }, neg)) =
        (({ Name := "", Zone := zone, Region := "" } : Key), neg) :: aggregatedEntries st.2 := by
      unfold aggregatedEntries
      rw [AList.insert_entries_of_neg hfresh, List.map_cons]
    rw [aggregateLoop]
    refine h2.trans ?_
    rw [hentries, List.map_cons]
    exact List.perm_middle.symm

theorem aggregateZones_entries
    (entries : List (Sigma fun _ : String => List NetworkEndpointGroup))
    (st : Nat × AggregatedResult) (h : AddressesBelow st) :
    AddressesBelow (aggregateZones entries st) ∧
    (aggregatedEntries (aggregateZones entries st).2).Perm
      (aggregatedEntries st.2 ++ entries.flatMap fun entry =>
        entry.2.map fun neg => (({ Name := "", Zone := entry.1, Region := "" } : Key), neg)) := by
  induction entries generalizing st with
  | nil => exact ⟨h, by simp [aggregateZones]⟩
  | cons entry rest ih =>
    obtain ⟨h1, h2⟩ := aggregateLoop_entries entry.1 entry.2 st h
    obtain ⟨h3, h4⟩ := ih _ h1
    refine ⟨h3, ?_⟩
    rw [aggregateZones]
    refine h4.trans ?_
    rw [List.flatMap_cons, ← List.append_assoc]
    exact List.Perm.append_right _ h2

theorem mem_aggregatedEntries (f : FakeNetworkEndpointGroupCloud) (base : Nat) (key : Key)
    (neg : NetworkEndpointGroup) :
    (key, neg) ∈ aggregatedEntries (aggregateZones f.NetworkEndpointGroups.entries (base, ∅)).2 ↔
      key.Name = "" ∧ key.Region = "" ∧ key.Zone ∈ f.NetworkEndpointGroups.keys ∧
        neg ∈ zoneNegs f key.Zone := by
  have hperm := (aggregateZones_entries f.NetworkEndpointGroups.entries (base, ∅)
    (addressesBelow_empty base)).2
  rw [hperm.mem_iff]
  have hempty : aggregatedEntries (base, (∅ : AggregatedResult)).2 = [] := rfl
  rw [hempty, List.nil_append, List.mem_flatMap]
  constructor
  · rintro ⟨entry, hentry, hmem⟩
    obtain ⟨n, hn, heq⟩ := List.mem_map.1 hmem
    have hlookup : f.NetworkEndpointGroups.lookup entry.1 = some entry.2 :=
      List.mem_dlookup f.NetworkEndpointGroups.nodupKeys hentry
    have hkey : key = { Name := "", Zone := entry.1, Region := "" } := by
      have := congrArg Prod.fst heq
      exact this.symm
    have hneg : neg = n := by
      have := congrArg Prod.snd heq
      exact this.symm
    subst hkey hneg
    refine ⟨rfl, rfl, ?_, ?_⟩
    · exact List.mem_keys_of_mem hentry
    · simpa [zoneNegs, hlookup] using hn
  · rintro ⟨hname, hregion, hzone, hneg⟩
    have hin : key.Zone ∈ f.NetworkEndpointGroups := AList.mem_keys.2 hzone
    obtain ⟨negs, hnegs⟩ := Option.isSome_iff_exists.1 (AList.lookup_isSome.2 hin)
    refine ⟨⟨key.Zone, negs⟩, ?_, ?_⟩
    · exact AList.mem_lookup_iff.1 (by rw [hnegs]; exact rfl)
    · refine List.mem_map.2 ⟨neg, ?_, ?_⟩
      · simpa [zoneNegs, hnegs] using hneg
      · cases key
        simp only at hname hregion
        subst hname hregion
        rfl

theorem getZoneLoop_ok (name zone : String)
    (entries : List (Sigma fun _ : String => List String))
    (h : getZoneLoop name entries = .ok zone) :
    ∃ entry ∈ entries, entry.1 = zone ∧ name ∈ entry.2 := by
  induction entries with
  | nil => simp [getZoneLoop] at h
  | cons entry rest ih =>
    by_cases hmem : name ∈ entry.2
    · simp only [getZoneLoop, if_pos hmem, Except.ok.injEq] at h
      exact ⟨entry, List.mem_cons_self _ _, h, hmem⟩
    · simp only [getZoneLoop, if_neg hmem] at h
      obtain ⟨e, he, h1, h2⟩ := ih h
      exact ⟨e, List.mem_cons_of_mem _ he, h1, h2⟩

theorem getZoneLoop_error_iff (name : String)
    (entries : List (Sigma fun _ : String => List String)) :
    getZoneLoop name entries = .error Error.NotFoundError ↔
      ∀ entry ∈ entries, name ∉ entry.2 := by
  induction entries with
  | nil => simp [getZoneLoop]
  | cons entry rest ih =>
    by_cases hmem : name ∈ entry.2
    · simp [getZoneLoop, hmem]
    · simp [getZoneLoop, hmem, ih]

theorem newFakeZoneGetter_entries :
    NewFakeZoneGetter.zoneInstanceMap.entries =
      [⟨TestZone1, [TestInstance1, TestInstance2]⟩,
        ⟨TestZone2, [TestInstance3, TestInstance4, TestInstance5, TestInstance6]⟩] := by
  decide

theorem getZoneLoop_of_unique (name zone : String) (members : List String)
    (entries : List (Sigma fun _ : String => List String))
    (hentry : (⟨zone, members⟩ : Sigma fun _ : String => List String) ∈ entries)
    (hmem : name ∈ members)
    (huniq : ∀ entry ∈ entries, name ∈ entry.2 → entry.1 = zone) :
    getZoneLoop name entries = .ok zone := by
  cases hres : getZoneLoop name entries with
  | error err =>
    cases err
    exact absurd hmem ((getZoneLoop_error_iff name entries).1 hres _ hentry)
  | ok z =>
    obtain ⟨e, he, h1, h2⟩ := getZoneLoop_ok name z entries hres
    rw [← h1, huniq e he h2]

theorem get_after_delete (f : FakeNetworkEndpointGroupCloud) (name zone : String)
    (version version2 : Version) :
    (f.DeleteNetworkEndpointGroup name zone version).1.GetNetworkEndpointGroup
      name zone version2 = .error Error.NotFoundError := by
  rw [getNetworkEndpointGroup_eq, zoneNegs_delete]
  have hnone : getLoop name ((zoneNegs f zone).filter (fun m => decide (m.Name ≠ name)))
      = none := by
    rw [getLoop_eq_none_iff]
    intro neg hneg
    simpa using (List.mem_filter.1 hneg).2
  rw [hnone]

theorem delete_succeeds_iff (f : FakeNetworkEndpointGroupCloud) (name zone : String)
    (version : Version) :
    (f.DeleteNetworkEndpointGroup name zone version).2 = none ↔
      ∃ neg ∈ zoneNegs f zone, neg.Name = name := by
  rw [deleteNetworkEndpointGroup_eq]
  by_cases h : (zoneNegs f zone).any (fun m => decide (m.Name = name)) = true
  · rw [if_pos h]
    simp only [List.any_eq_true, decide_eq_true_eq] at h
    simpa using h
  · rw [if_neg h]
    simp only [List.any_eq_true, decide_eq_true_eq] at h
    simpa using h

theorem pointers_zonePointers_create (selfLink : SelfLinkFn)
    (f : Pointers.FakeNetworkEndpointGroupCloud) (mem : Memory) (neg : Addr) (z : String) :
    Pointers.zonePointers (f.CreateNetworkEndpointGroup selfLink mem neg z).2.1 z =
      Pointers.zonePointers f z ++ [neg] := by
  unfold Pointers.FakeNetworkEndpointGroupCloud.CreateNetworkEndpointGroup Pointers.zonePointers
  cases h : f.NetworkEndpointGroups.lookup z <;> simp [AList.lookup_insert, h]

theorem pointers_zonePointers_create_other (selfLink : SelfLinkFn)
    (f : Pointers.FakeNetworkEndpointGroupCloud) (mem : Memory) (neg : Addr) (z zone : String)
    (h : zone ≠ z) :
    Pointers.zonePointers (f.CreateNetworkEndpointGroup selfLink mem neg z).2.1 zone =
      Pointers.zonePointers f zone := by
  unfold Pointers.FakeNetworkEndpointGroupCloud.CreateNetworkEndpointGroup Pointers.zonePointers
  cases hz : f.NetworkEndpointGroups.lookup z <;> simp [AList.lookup_insert_ne h]

theorem pointers_memory_create_self (selfLink : SelfLinkFn)
    (f : Pointers.FakeNetworkEndpointGroupCloud) (mem : Memory) (neg : Addr) (z : String) :
    (f.CreateNetworkEndpointGroup selfLink mem neg z).1 neg =
      { mem neg with SelfLink := selfLink "mock-project" z (mem neg).Name VersionAlpha } := by
  simp [Pointers.FakeNetworkEndpointGroupCloud.CreateNetworkEndpointGroup]

theorem pointers_memory_create_other (selfLink : SelfLinkFn)
    (f : Pointers.FakeNetworkEndpointGroupCloud) (mem : Memory) (neg other : Addr) (z : String)
    (h : other ≠ neg) :
    (f.CreateNetworkEndpointGroup selfLink mem neg z).1 other = mem other := by
  simp [Pointers.FakeNetworkEndpointGroupCloud.CreateNetworkEndpointGroup,
    Function.update_noteq h]

theorem pointers_memory_create_name (selfLink : SelfLinkFn)
    (f : Pointers.FakeNetworkEndpointGroupCloud) (mem : Memory) (neg a : Addr) (z : String) :
    ((f.CreateNetworkEndpointGroup selfLink mem neg z).1 a).Name = (mem a).Name := by
  by_cases h : a = neg
  · subst h
    rw [pointers_memory_create_self]
  · rw [pointers_memory_create_other selfLink f mem neg a z h]

theorem pointers_map_memory_create (selfLink : SelfLinkFn)
    (f : Pointers.FakeNetworkEndpointGroupCloud) (mem : Memory) (neg : Addr) (z : String)
    (ptrs : List Addr) (h : neg ∉ ptrs) :
    ptrs.map (f.CreateNetworkEndpointGroup selfLink mem neg z).1 = ptrs.map mem := by
  apply List.map_congr_left
  intro a ha
  exact pointers_memory_create_other selfLink f mem neg a z (fun heq => h (heq ▸ ha))

theorem pointers_getLoop_congr (mem mem2 : Memory) (name : String) (ptrs : List Addr)
    (h : ∀ a, (mem2 a).Name = (mem a).Name) :
    Pointers.FakeNetworkEndpointGroupCloud.getLoop mem2 name ptrs =
      Pointers.FakeNetworkEndpointGroupCloud.getLoop mem name ptrs := by
  induction ptrs with
  | nil => rfl
  | cons a rest ih =>
    simp only [Pointers.FakeNetworkEndpointGroupCloud.getLoop, h a, ih]

theorem pointers_getLoop_eq_none_iff (mem : Memory) (name : String) (ptrs : List Addr) :
    Pointers.FakeNetworkEndpointGroupCloud.getLoop mem name ptrs = none ↔
      ∀ a ∈ ptrs, (mem a).Name ≠ name := by
  induction ptrs with
  | nil => simp [Pointers.FakeNetworkEndpointGroupCloud.getLoop]
  | cons a rest ih =>
    by_cases h : (mem a).Name = name
    · simp [Pointers.FakeNetworkEndpointGroupCloud.getLoop, h]
    · simp [Pointers.FakeNetworkEndpointGroupCloud.getLoop, h, ih]

theorem pointers_get_eq (f : Pointers.FakeNetworkEndpointGroupCloud) (mem : Memory)
    (name zone : String) (version : Version) :
    f.GetNetworkEndpointGroup mem name zone version =
      match Pointers.FakeNetworkEndpointGroupCloud.getLoop mem name
          (Pointers.zonePointers f zone) with
      | some neg => .ok neg
      | none => .error Error.NotFoundError := by
  unfold Pointers.FakeNetworkEndpointGroupCloud.GetNetworkEndpointGroup Pointers.zonePointers
  cases f.NetworkEndpointGroups.lookup zone <;>
    simp [Pointers.FakeNetworkEndpointGroupCloud.getLoop]

theorem pointers_deleteLoop_eq (mem : Memory) (name : String) (ptrs newList : List Addr)
    (found : Bool) :
    Pointers.FakeNetworkEndpointGroupCloud.deleteLoop mem name ptrs newList found =
      (newList ++ ptrs.filter (fun a => decide ((mem a).Name ≠ name)),
        found || ptrs.any (fun a => decide ((mem a).Name = name))) := by
  induction ptrs generalizing newList found with
  | nil => simp [Pointers.FakeNetworkEndpointGroupCloud.deleteLoop]
  | cons a rest ih =>
    by_cases h : (mem a).Name = name
    · simp [Pointers.FakeNetworkEndpointGroupCloud.deleteLoop, h, ih]
    · simp [Pointers.FakeNetworkEndpointGroupCloud.deleteLoop, h, ih]

theorem pointers_delete_eq (f : Pointers.FakeNetworkEndpointGroupCloud) (mem : Memory)
    (name zone : String) (version : Version) :
    f.DeleteNetworkEndpointGroup mem name zone version =
      if (Pointers.zonePointers f zone).any (fun a => decide ((mem a).Name = name)) = true then
        ({ f with
            NetworkEndpoints := f.NetworkEndpoints.erase (networkEndpointKey name zone)
            NetworkEndpointGroups :=
              f.NetworkEndpointGroups.insert zone
                ((Pointers.zonePointers f zone).filter
                  (fun a => decide ((mem a).Name ≠ name))) }, none)
      else
        ({ f with NetworkEndpoints := f.NetworkEndpoints.erase (networkEndpointKey name zone) },
          some Error.NotFoundError) := by
  unfold Pointers.FakeNetworkEndpointGroupCloud.DeleteNetworkEndpointGroup Pointers.zonePointers
  simp only [pointers_deleteLoop_eq, List.nil_append, Bool.false_or]
  by_cases h : (List.any ((f.NetworkEndpointGroups.lookup zone).getD [])
      (fun a => decide ((mem a).Name = name))) = true
  · simp [h]
  · simp [h]

theorem pointers_zonePointers_delete (f : Pointers.FakeNetworkEndpointGroupCloud)
    (mem : Memory) (name z : String) (version : Version) :
    Pointers.zonePointers (f.DeleteNetworkEndpointGroup mem name z version).1 z =
      (Pointers.zonePointers f z).filter (fun a => decide ((mem a).Name ≠ name)) := by
  rw [pointers_delete_eq]
  by_cases h : (Pointers.zonePointers f z).any (fun a => decide ((mem a).Name = name)) = true
  · rw [if_pos h]
    simp [Pointers.zonePointers, AList.lookup_insert]
  · rw [if_neg h]
    symm
    show List.filter _ (Pointers.zonePointers f z) = Pointers.zonePointers f z
    rw [List.filter_eq_self]
    intro a ha
    simp only [List.any_eq_true, decide_eq_true_eq, not_exists, not_and] at h
    simpa using h a ha

theorem pointers_zonePointers_delete_other (f : Pointers.FakeNetworkEndpointGroupCloud)
    (mem : Memory) (name z zone : String) (version : Version) (h : zone ≠ z) :
    Pointers.zonePointers (f.DeleteNetworkEndpointGroup mem name z version).1 zone =
      Pointers.zonePointers f zone := by
  rw [pointers_delete_eq]
  by_cases hany :
      (Pointers.zonePointers f z).any (fun a => decide ((mem a).Name = name)) = true
  · rw [if_pos hany]
    simp [Pointers.zonePointers, AList.lookup_insert_ne h]
  · rw [if_neg hany]
    rfl

theorem pointers_zonePointers_apply (selfLink : SelfLinkFn)
    (st : Memory × Pointers.FakeNetworkEndpointGroupCloud) (op : Pointers.Op) (zone : String)
    (rest : List Addr) :
    (Pointers.zonePointers (op.apply selfLink st).2 zone ++ rest).Sublist
        (Pointers.zonePointers st.2 zone ++ Pointers.createdIn zone [op] ++ rest) ∧
    (op.isDelete = false →
      Pointers.zonePointers (op.apply selfLink st).2 zone =
        Pointers.zonePointers st.2 zone ++ Pointers.createdIn zone [op]) := by
  cases op with
  | create neg z =>
    by_cases hz : z = zone
    · subst hz
      have hp : Pointers.zonePointers (Pointers.Op.apply selfLink st (.create neg z)).2 z =
          Pointers.zonePointers st.2 z ++ [neg] :=
        pointers_zonePointers_create selfLink st.2 st.1 neg z
      simp only [Pointers.createdIn, if_true]
      rw [hp]
      exact ⟨List.Sublist.refl _, fun _ => rfl⟩
    · have hp : Pointers.zonePointers (Pointers.Op.apply selfLink st (.create neg z)).2 zone =
          Pointers.zonePointers st.2 zone :=
        pointers_zonePointers_create_other selfLink st.2 st.1 neg z zone (Ne.symm hz)
      simp only [Pointers.createdIn, if_neg hz, List.append_nil]
      rw [hp]
      exact ⟨List.Sublist.refl _, fun _ => rfl⟩
  | delete name z version =>
    refine ⟨?_, fun h => absurd h (by simp [Pointers.Op.isDelete])⟩
    simp only [Pointers.createdIn, List.append_nil]
    apply List.Sublist.append_right
    by_cases hz : zone = z
    · subst hz
      show (Pointers.zonePointers (st.2.DeleteNetworkEndpointGroup st.1 name zone version).1
        zone).Sublist _
      rw [pointers_zonePointers_delete]
      exact List.filter_sublist _
    · show (Pointers.zonePointers (st.2.DeleteNetworkEndpointGroup st.1 name z version).1
        zone).Sublist _
      rw [pointers_zonePointers_delete_other st.2 st.1 name z zone version hz]
  | attach name z endpoints version =>
    simp only [Pointers.createdIn, List.append_nil]
    exact ⟨List.Sublist.refl _, fun _ => rfl⟩
  | detach name z endpoints version =>
    simp only [Pointers.createdIn, List.append_nil]
    exact ⟨List.Sublist.refl _, fun _ => rfl⟩

theorem pointers_createdIn_cons (zone : String) (op : Pointers.Op) (rest : List Pointers.Op) :
    Pointers.createdIn zone (op :: rest) =
      Pointers.createdIn zone [op] ++ Pointers.createdIn zone rest := by
  cases op with
  | create neg z =>
    by_cases hz : z = zone
    · simp [Pointers.createdIn, hz]
    · simp [Pointers.createdIn, hz]
  | delete name z version => simp [Pointers.createdIn]
  | attach name z endpoints version => simp [Pointers.createdIn]
  | detach name z endpoints version => simp [Pointers.createdIn]

theorem pointers_zonePointers_runOps (selfLink : SelfLinkFn) (zone : String)
    (ops : List Pointers.Op) (st : Memory × Pointers.FakeNetworkEndpointGroupCloud) :
    (Pointers.zonePointers (Pointers.runOps selfLink st ops).2 zone).Sublist
        (Pointers.zonePointers st.2 zone ++ Pointers.createdIn zone ops) ∧
    ((∀ op ∈ ops, op.isDelete = false) →
      Pointers.zonePointers (Pointers.runOps selfLink st ops).2 zone =
        Pointers.zonePointers st.2 zone ++ Pointers.createdIn zone ops) := by
  induction ops generalizing st with
  | nil => simp [Pointers.runOps, Pointers.createdIn]
  | cons op rest ih =>
    obtain ⟨ih1, ih2⟩ := ih (op.apply selfLink st)
    obtain ⟨h1, h2⟩ := pointers_zonePointers_apply selfLink st op zone
      (Pointers.createdIn zone rest)
    rw [Pointers.runOps, pointers_createdIn_cons, ← List.append_assoc]
    refine ⟨ih1.trans h1, ?_⟩
    intro hops
    rw [ih2 (fun o ho => hops o (List.mem_cons_of_mem _ ho)),
      h2 (hops op (List.mem_cons_self _ _))]

theorem lookup_create (selfLink : SelfLinkFn) (f : FakeNetworkEndpointGroupCloud)
    (neg : NetworkEndpointGroup) (z zone : String) :
    (f.CreateNetworkEndpointGroup selfLink neg z).1.NetworkEndpointGroups.lookup zone =
      if zone = z then
        some (zoneNegs f z ++
          [{ neg with SelfLink := selfLink "mock-project" z neg.Name VersionAlpha }])
      else f.NetworkEndpointGroups.lookup zone := by
  unfold CreateNetworkEndpointGroup zoneNegs
  by_cases hz : zone = z
  · subst hz
    rw [if_pos rfl]
    cases h : f.NetworkEndpointGroups.lookup zone <;> simp [AList.lookup_insert, h]
  · rw [if_neg hz]
    cases h : f.NetworkEndpointGroups.lookup z <;> simp [AList.lookup_insert_ne hz]

theorem pointers_lookup_create (selfLink : SelfLinkFn)
    (f : Pointers.FakeNetworkEndpointGroupCloud) (mem : Memory) (neg : Addr)
    (z zone : String) :
    (f.CreateNetworkEndpointGroup selfLink mem neg z).2.1.NetworkEndpointGroups.lookup zone =
      if zone = z then some (Pointers.zonePointers f z ++ [neg])
      else f.NetworkEndpointGroups.lookup zone := by
  unfold Pointers.FakeNetworkEndpointGroupCloud.CreateNetworkEndpointGroup Pointers.zonePointers
  by_cases hz : zone = z
  · subst hz
    rw [if_pos rfl]
    cases h : f.NetworkEndpointGroups.lookup zone <;> simp [AList.lookup_insert, h]
  · rw [if_neg hz]
    cases h : f.NetworkEndpointGroups.lookup z <;> simp [AList.lookup_insert_ne hz]

theorem represents_new (mem : Memory) (subnetwork network : String) :
    Pointers.Represents mem (Pointers.NewFakeNetworkEndpointGroupCloud subnetwork network)
      (NewFakeNetworkEndpointGroupCloud subnetwork network) :=
  ⟨rfl, rfl, rfl, fun _ => rfl⟩

theorem represents_zoneNegs (mem : Memory) (f : Pointers.FakeNetworkEndpointGroupCloud)
    (view : FakeNetworkEndpointGroupCloud) (h : Pointers.Represents mem f view)
    (zone : String) : zoneNegs view zone = (Pointers.zonePointers f zone).map mem := by
  unfold zoneNegs Pointers.zonePointers
  rw [h.2.2.2 zone]
  cases f.NetworkEndpointGroups.lookup zone <;> simp

theorem getLoop_map (mem : Memory) (name : String) (ptrs : List Addr) :
    getLoop name (ptrs.map mem) =
      (Pointers.FakeNetworkEndpointGroupCloud.getLoop mem name ptrs).map mem := by
  induction ptrs with
  | nil => rfl
  | cons a rest ih =>
    by_cases h : (mem a).Name = name
    · simp [getLoop, Pointers.FakeNetworkEndpointGroupCloud.getLoop, h]
    · simp [getLoop, Pointers.FakeNetworkEndpointGroupCloud.getLoop, h, ih]

/-- The store of values answers `ListNetworkEndpointGroup` and
`GetNetworkEndpointGroup` with the objects the store of pointers answers with. -/
theorem represents_reads (mem : Memory) (f : Pointers.FakeNetworkEndpointGroupCloud)
    (view : FakeNetworkEndpointGroupCloud) (h : Pointers.Represents mem f view)
    (name zone : String) (version : Version) :
    view.ListNetworkEndpointGroup zone version =
      (f.ListNetworkEndpointGroup zone version).map (List.map mem) ∧
    view.GetNetworkEndpointGroup name zone version =
      (f.GetNetworkEndpointGroup mem name zone version).map mem := by
  constructor
  · show Except.ok (zoneNegs view zone) = Except.ok ((Pointers.zonePointers f zone).map mem)
    rw [represents_zoneNegs mem f view h]
  · rw [getNetworkEndpointGroup_eq, pointers_get_eq, represents_zoneNegs mem f view h,
      getLoop_map]
    cases Pointers.FakeNetworkEndpointGroupCloud.getLoop mem name
      (Pointers.zonePointers f zone) <;> rfl

/-- The create of an object that is in no slice of the store: the store of values
after `CreateNetworkEndpointGroup` of the object's value is the store of pointers
after `CreateNetworkEndpointGroup` of its pointer, read through the new memory. -/
theorem represents_create (selfLink : SelfLinkFn) (mem : Memory)
    (f : Pointers.FakeNetworkEndpointGroupCloud) (view : FakeNetworkEndpointGroupCloud)
    (h : Pointers.Represents mem f view) (neg : Addr) (z : String)
    (hfresh : ∀ zone, neg ∉ Pointers.zonePointers f zone) :
    Pointers.Represents (f.CreateNetworkEndpointGroup selfLink mem neg z).1
      (f.CreateNetworkEndpointGroup selfLink mem neg z).2.1
      (view.CreateNetworkEndpointGroup selfLink (mem neg) z).1 := by
  refine ⟨?_, h.2.1, h.2.2.1, ?_⟩
  · have hview : (view.CreateNetworkEndpointGroup selfLink (mem neg) z).1.NetworkEndpoints =
        AList.insert (networkEndpointKey (mem neg).Name z) [] view.NetworkEndpoints := rfl
    have hptr : (f.CreateNetworkEndpointGroup selfLink mem neg z).2.1.NetworkEndpoints =
        AList.insert (networkEndpointKey
          ((f.CreateNetworkEndpointGroup selfLink mem neg z).1 neg).Name z) []
          f.NetworkEndpoints := rfl
    rw [hview, hptr, pointers_memory_create_name, h.1]
  · intro zone
    rw [lookup_create, pointers_lookup_create]
    by_cases hz : zone = z
    · subst hz
      rw [if_pos rfl, if_pos rfl, represents_zoneNegs mem f view h]
      simp only [Option.map_some', List.map_append, List.map_singleton]
      rw [pointers_map_memory_create selfLink f mem neg zone _ (hfresh zone),
        pointers_memory_create_self]
    · rw [if_neg hz, if_neg hz, h.2.2.2 zone]
      cases hl : f.NetworkEndpointGroups.lookup zone with
      | none => rfl
      | some ptrs =>
        have hmem : neg ∉ ptrs := by
          have := hfresh zone
          simpa [Pointers.zonePointers, hl] using this
        simp only [Option.map_some']
        rw [pointers_map_memory_create selfLink f mem neg z ptrs hmem]

/-- The store of values after `DeleteNetworkEndpointGroup` is the store of
pointers after `DeleteNetworkEndpointGroup`, read through the memory, and the two
calls return the same error. -/
theorem represents_delete (mem : Memory) (f : Pointers.FakeNetworkEndpointGroupCloud)
    (view : FakeNetworkEndpointGroupCloud) (h : Pointers.Represents mem f view)
    (name z : String) (version : Version) :
    Pointers.Represents mem (f.DeleteNetworkEndpointGroup mem name z version).1
      (view.DeleteNetworkEndpointGroup name z version).1 ∧
    (f.DeleteNetworkEndpointGroup mem name z version).2 =
      (view.DeleteNetworkEndpointGroup name z version).2 := by
  have hany : (zoneNegs view z).any (fun m => decide (m.Name = name)) =
      (Pointers.zonePointers f z).any (fun a => decide ((mem a).Name = name)) := by
    rw [represents_zoneNegs mem f view h]
    induction Pointers.zonePointers f z with
    | nil => rfl
    | cons a rest ih => simp only [List.map_cons, List.any_cons, ih]
  have hfilter : (zoneNegs view z).filter (fun m => decide (m.Name ≠ name)) =
      ((Pointers.zonePointers f z).filter (fun a => decide ((mem a).Name ≠ name))).map mem := by
    rw [represents_zoneNegs mem f view h]
    induction Pointers.zonePointers f z with
    | nil => rfl
    | cons a rest ih =>
      by_cases hn : (mem a).Name = name
      · simp only [List.map_cons, List.filter_cons, hn, ne_eq, not_true_eq_false,
          decide_False, ih]
        rfl
      · simp only [List.map_cons, List.filter_cons, hn, ne_eq, not_false_eq_true,
          decide_True, ih]
        rfl
  rw [deleteNetworkEndpointGroup_eq, pointers_delete_eq, hany]
  by_cases hfound :
      (Pointers.zonePointers f z).any (fun a => decide ((mem a).Name = name)) = true
  · rw [if_pos hfound, if_pos hfound]
    refine ⟨⟨?_, h.2.1, h.2.2.1, ?_⟩, rfl⟩
    · show AList.erase _ view.NetworkEndpoints = AList.erase _ f.NetworkEndpoints
      rw [h.1]
    · intro zone
      by_cases hz : zone = z
      · subst hz
        simp only [AList.lookup_insert, Option.map_some', hfilter]
      · simp only [AList.lookup_insert_ne hz]
        exact h.2.2.2 zone
  · rw [if_neg hfound, if_neg hfound]
    refine ⟨⟨?_, h.2.1, h.2.2.1, h.2.2.2⟩, rfl⟩
    show AList.erase _ view.NetworkEndpoints = AList.erase _ f.NetworkEndpoints
    rw [h.1]

/-- The stores after `AttachNetworkEndpoints` and after `DetachNetworkEndpoints`
correspond as the stores before do. -/
theorem represents_attach_detach (mem : Memory) (f : Pointers.FakeNetworkEndpointGroupCloud)
    (view : FakeNetworkEndpointGroupCloud) (h : Pointers.Represents mem f view)
    (name z : String) (endpoints : List NetworkEndpoint) (version : Version) :
    Pointers.Represents mem (f.AttachNetworkEndpoints name z endpoints version).1
      (view.AttachNetworkEndpoints name z endpoints version).1 ∧
    Pointers.Represents mem (f.DetachNetworkEndpoints name z endpoints version).1
      (view.DetachNetworkEndpoints name z endpoints version).1 := by
  refine ⟨⟨?_, h.2.1, h.2.2.1, h.2.2.2⟩, ⟨?_, h.2.1, h.2.2.1, h.2.2.2⟩⟩
  · show AList.insert _ _ view.NetworkEndpoints = AList.insert _ _ f.NetworkEndpoints
    rw [h.1]
  · show AList.insert _ _ view.NetworkEndpoints = AList.insert _ _ f.NetworkEndpoints
    rw [h.1]

/-! ## The claims -/

/-- C1: `GetNetworkEndpointGroup(name, zone, version)` returns `NotFoundError` exactly when
the zone's NEG sequence has no NEG named `name`; otherwise it returns the first NEG of
the sequence with that name; the version does not influence the result. -/
theorem getNetworkEndpointGroup_spec (f : FakeNetworkEndpointGroupCloud) (name zone : String)
    (version : Version) :
    (f.GetNetworkEndpointGroup name zone version = .error Error.NotFoundError ↔
      ∀ neg ∈ zoneNegs f zone, neg.Name ≠ name) ∧
    ((∃ neg ∈ zoneNegs f zone, neg.Name = name) →
      ∃ neg pre post, f.GetNetworkEndpointGroup name zone version = .ok neg ∧
        zoneNegs f zone = pre ++ neg :: post ∧ neg.Name = name ∧ ∀ m ∈ pre, m.Name ≠ name) ∧
    ∀ version2 : Version,
      f.GetNetworkEndpointGroup name zone version2 = f.GetNetworkEndpointGroup name zone version := by
  refine ⟨?_, ?_, ?_⟩
  · rw [getNetworkEndpointGroup_eq, ← getLoop_eq_none_iff]
    cases getLoop name (zoneNegs f zone) <;> simp
  · rintro ⟨neg, hmem, hname⟩
    cases h : getLoop name (zoneNegs f zone) with
    | none => exact absurd hname ((getLoop_eq_none_iff _ _).1 h neg hmem)
    | some found =>
      obtain ⟨pre, post, h1, h2, h3⟩ := getLoop_eq_some _ _ _ h
      exact ⟨found, pre, post, by rw [getNetworkEndpointGroup_eq, h], h1, h2, h3⟩
  · intro version2
    rw [getNetworkEndpointGroup_eq, getNetworkEndpointGroup_eq]

/-- C2, counterexample: the NEG object at address 0 was created in "zone2" and then in
"zone1", so the listing of "zone2" shows it with the self-link of "zone1". A further create
of the same object in "zone2" returns no error, and the listing of "zone2" then shows the
object twice with the self-link of "zone2": it is not the previous listing followed by one
element, the entry that was there has changed too. -/
theorem create_same_object_counterexample :
    (sampleCreatedTwice.2.CreateNetworkEndpointGroup sampleSelfLink sampleCreatedTwice.1 0
      "zone2").2.2 = none ∧
    ∃ prev now,
      sampleCreatedTwice.2.ListNetworkEndpointGroup "zone2" VersionGA = .ok prev ∧
      (sampleCreatedTwice.2.CreateNetworkEndpointGroup sampleSelfLink sampleCreatedTwice.1 0
        "zone2").2.1.ListNetworkEndpointGroup "zone2" VersionGA = .ok now ∧
      now.map (sampleCreatedTwice.2.CreateNetworkEndpointGroup sampleSelfLink
          sampleCreatedTwice.1 0 "zone2").1 ≠
        prev.map sampleCreatedTwice.1 ++
          [{ sampleCreatedTwice.1 0 with
              SelfLink := sampleSelfLink "mock-project" "zone2"
                (sampleCreatedTwice.1 0).Name VersionAlpha }] := by
  refine ⟨rfl, _, _, rfl, rfl, ?_⟩
  decide

/-- C2, amended: `CreateNetworkEndpointGroup(neg, z)` returns no error; afterwards the
listing of `z` is, as a sequence of pointers, the previous listing followed by `neg`; the
object `neg` points to has its `SelfLink` set to the self-link of project "mock-project",
`z`, its name and the alpha version and is otherwise as before, and every other object is
as before. So when `neg` is not already in the listing of `z`, the objects listed are the
objects listed before followed by the NEG with its `SelfLink` replaced. The assigned
`SelfLink` depends on `z` and the name only: a create in `z` of any object of the same
name, on any store and memory, assigns the same `SelfLink`. -/
theorem createNetworkEndpointGroup_references (selfLink : SelfLinkFn)
    (f : Pointers.FakeNetworkEndpointGroupCloud) (mem : Memory) (neg : Addr) (z : String)
    (version : Version) :
    (f.CreateNetworkEndpointGroup selfLink mem neg z).2.2 = none ∧
    (∃ prev, f.ListNetworkEndpointGroup z version = .ok prev ∧
      (f.CreateNetworkEndpointGroup selfLink mem neg z).2.1.ListNetworkEndpointGroup z version =
        .ok (prev ++ [neg]) ∧
      (neg ∉ prev →
        (prev ++ [neg]).map (f.CreateNetworkEndpointGroup selfLink mem neg z).1 =
          prev.map mem ++
            [{ mem neg with
                SelfLink := selfLink "mock-project" z (mem neg).Name VersionAlpha }])) ∧
    (f.CreateNetworkEndpointGroup selfLink mem neg z).1 neg =
      { mem neg with SelfLink := selfLink "mock-project" z (mem neg).Name VersionAlpha } ∧
    (∀ other : Addr, other ≠ neg →
      (f.CreateNetworkEndpointGroup selfLink mem neg z).1 other = mem other) ∧
    ∀ (f2 : Pointers.FakeNetworkEndpointGroupCloud) (mem2 : Memory) (neg2 : Addr),
      (mem2 neg2).Name = (mem neg).Name →
      ((f2.CreateNetworkEndpointGroup selfLink mem2 neg2 z).1 neg2).SelfLink =
        ((f.CreateNetworkEndpointGroup selfLink mem neg z).1 neg).SelfLink := by
  refine ⟨rfl, ⟨Pointers.zonePointers f z, rfl, ?_, ?_⟩,
    pointers_memory_create_self selfLink f mem neg z,
    fun other h => pointers_memory_create_other selfLink f mem neg other z h, ?_⟩
  · show Except.ok (Pointers.zonePointers _ z) = _
    rw [pointers_zonePointers_create]
  · intro hfresh
    rw [List.map_append, pointers_map_memory_create selfLink f mem neg z _ hfresh,
      List.map_singleton, pointers_memory_create_self]
  · intro f2 mem2 neg2 hname
    rw [pointers_memory_create_self, pointers_memory_create_self, hname]

/-- C3, counterexample: on a new store two creates of a NEG named "neg-a" in "zone1" both
return no error, and the listing of "zone1" then holds two NEGs of that name. -/
theorem create_twice_counterexample :
    (sampleStore.CreateNetworkEndpointGroup sampleSelfLink sampleNeg "zone1").2 = none ∧
    ((sampleStore.CreateNetworkEndpointGroup sampleSelfLink sampleNeg
      "zone1").1.CreateNetworkEndpointGroup sampleSelfLink sampleNeg "zone1").2 = none ∧
    ∃ negs,
      ((sampleStore.CreateNetworkEndpointGroup sampleSelfLink sampleNeg
        "zone1").1.CreateNetworkEndpointGroup sampleSelfLink sampleNeg
        "zone1").1.ListNetworkEndpointGroup "zone1" VersionGA = .ok negs ∧
      negs.countP (fun m => decide (m.Name = "neg-a")) = 2 := by
  refine ⟨rfl, rfl, _, rfl, ?_⟩
  decide

/-- C3, amended: `CreateNetworkEndpointGroup` does not look for a NEG of the same name: on a
new store, a create followed by a create of a NEG of the same name in the same zone both
return no error and leave two NEGs of that name in the zone. Uniqueness holds under the
caller discipline "create only what is absent": in every state reached from a new store by
creates, deletes, attaches and detaches in which every create is issued for a zone holding
no NEG of that name, each zone holds at most one NEG of any given name. -/
theorem create_uniqueness_under_discipline (selfLink : SelfLinkFn)
    (subnetwork network : String) :
    (∀ (neg neg2 : NetworkEndpointGroup) (z : String), neg2.Name = neg.Name →
      (((NewFakeNetworkEndpointGroupCloud subnetwork network).CreateNetworkEndpointGroup
        selfLink neg z).1.CreateNetworkEndpointGroup selfLink neg2 z).2 = none ∧
      (zoneNegs (((NewFakeNetworkEndpointGroupCloud subnetwork network).CreateNetworkEndpointGroup
        selfLink neg z).1.CreateNetworkEndpointGroup selfLink neg2 z).1 z).countP
          (fun m => decide (m.Name = neg.Name)) = 2) ∧
    ∀ ops : List Op,
      createsAbsentAll selfLink (NewFakeNetworkEndpointGroupCloud subnetwork network) ops = true →
      ∀ zone name : String,
        (zoneNegs (runOps selfLink (NewFakeNetworkEndpointGroupCloud subnetwork network) ops)
          zone).countP (fun m => decide (m.Name = name)) ≤ 1 := by
  refine ⟨?_, ?_⟩
  · intro neg neg2 z hname
    refine ⟨rfl, ?_⟩
    rw [zoneNegs_create, zoneNegs_create]
    simp [zoneNegs, NewFakeNetworkEndpointGroupCloud, hname]
  · intro ops hops
    exact uniqueNames_runOps selfLink ops _ (uniqueNames_new subnetwork network) hops

/-- C3, witness: a create, an attach, a delete and a second create of the same name respect
the discipline, and the final store holds one NEG named "neg-a" in "zone1". -/
theorem create_uniqueness_under_discipline_witness :
    createsAbsentAll sampleSelfLink (NewFakeNetworkEndpointGroupCloud "subnetwork" "network")
      [Op.create sampleNeg "zone1", Op.attach "neg-a" "zone1" [sampleEndpoint1] VersionGA,
        Op.delete "neg-a" "zone1" VersionGA, Op.create sampleNeg "zone1"] = true ∧
    (zoneNegs (runOps sampleSelfLink (NewFakeNetworkEndpointGroupCloud "subnetwork" "network")
      [Op.create sampleNeg "zone1", Op.attach "neg-a" "zone1" [sampleEndpoint1] VersionGA,
        Op.delete "neg-a" "zone1" VersionGA, Op.create sampleNeg "zone1"])
      "zone1").countP (fun m => decide (m.Name = "neg-a")) ≤ 1 :=
  ⟨by decide,
    (create_uniqueness_under_discipline sampleSelfLink "subnetwork" "network").2
      [Op.create sampleNeg "zone1", Op.attach "neg-a" "zone1" [sampleEndpoint1] VersionGA,
        Op.delete "neg-a" "zone1" VersionGA, Op.create sampleNeg "zone1"]
      (by decide) "zone1" "neg-a"⟩

/-- C4: `DeleteNetworkEndpointGroup(name, zone, version)` returns `NotFoundError` exactly when
the zone holds no NEG named `name`; when it returns no error, a following
`GetNetworkEndpointGroup(name, zone)` and a following `ListNetworkEndpoints(name, zone)`
both return `NotFoundError`, however many NEGs of that name the zone held. -/
theorem deleteNetworkEndpointGroup_spec (f : FakeNetworkEndpointGroupCloud) (name zone : String)
    (version : Version) :
    ((f.DeleteNetworkEndpointGroup name zone version).2 = some Error.NotFoundError ↔
      ∀ neg ∈ zoneNegs f zone, neg.Name ≠ name) ∧
    ((f.DeleteNetworkEndpointGroup name zone version).2 = none →
      ∀ (version2 : Version) (showHealthStatus : Bool),
        (f.DeleteNetworkEndpointGroup name zone version).1.GetNetworkEndpointGroup
            name zone version2 = .error Error.NotFoundError ∧
        (f.DeleteNetworkEndpointGroup name zone version).1.ListNetworkEndpoints
            name zone showHealthStatus version2 = .error Error.NotFoundError) := by
  rw [deleteNetworkEndpointGroup_eq]
  by_cases h : (zoneNegs f zone).any (fun m => decide (m.Name = name)) = true
  · rw [if_pos h]
    refine ⟨?_, ?_⟩
    · simp only [List.any_eq_true, decide_eq_true_eq] at h
      obtain ⟨m, hm, hname⟩ := h
      simp only [false_iff, reduceCtorEq]
      intro hall
      exact hall m hm hname
    · intro _ version2 showHealthStatus
      refine ⟨?_, ?_⟩
      · rw [getNetworkEndpointGroup_eq]
        have hz : zoneNegs
            { f with
              NetworkEndpoints := f.NetworkEndpoints.erase (networkEndpointKey name zone)
              NetworkEndpointGroups :=
                f.NetworkEndpointGroups.insert zone
                  ((zoneNegs f zone).filter (fun m => decide (m.Name ≠ name))) } zone =
            (zoneNegs f zone).filter (fun m => decide (m.Name ≠ name)) := by
          simp [zoneNegs, AList.lookup_insert]
        have hnone : getLoop name ((zoneNegs f zone).filter (fun m => decide (m.Name ≠ name)))
            = none := by
          rw [getLoop_eq_none_iff]
          intro neg hneg
          simpa using (List.mem_filter.1 hneg).2
        simp only [hz, hnone]
      · rw [listNetworkEndpoints_eq]
        simp [storedEndpoints, AList.lookup_erase]
  · rw [if_neg h]
    refine ⟨?_, ?_⟩
    · simp only [true_iff]
      intro neg hneg hname
      apply h
      simp only [List.any_eq_true, decide_eq_true_eq]
      exact ⟨neg, hneg, hname⟩
    · intro hcontra
      simp at hcontra

/-- C5: `ListNetworkEndpoints(name, zone, showHealthStatus, version)` returns `NotFoundError`
exactly when the store has no endpoint entry for the pair; otherwise it returns the stored
endpoints in stored order, each without health status, whatever `showHealthStatus` and
`version` are; right after `CreateNetworkEndpointGroup(neg, zone)` it returns the empty
sequence for `(neg.Name, zone)`. -/
theorem listNetworkEndpoints_spec (f : FakeNetworkEndpointGroupCloud) (name zone : String)
    (showHealthStatus : Bool) (version : Version) :
    (f.ListNetworkEndpoints name zone showHealthStatus version = .error Error.NotFoundError ↔
      storedEndpoints f name zone = none) ∧
    (∀ nes, storedEndpoints f name zone = some nes →
      f.ListNetworkEndpoints name zone showHealthStatus version =
        .ok (nes.map fun ne => { NetworkEndpoint := ne, Healths := [] })) ∧
    (∀ (showHealthStatus2 : Bool) (version2 : Version),
      f.ListNetworkEndpoints name zone showHealthStatus2 version2 =
        f.ListNetworkEndpoints name zone showHealthStatus version) ∧
    ∀ (selfLink : SelfLinkFn) (neg : NetworkEndpointGroup),
      (f.CreateNetworkEndpointGroup selfLink neg zone).1.ListNetworkEndpoints
        neg.Name zone showHealthStatus version = .ok [] := by
  refine ⟨?_, ?_, ?_, ?_⟩
  · rw [listNetworkEndpoints_eq]
    cases storedEndpoints f name zone <;> simp
  · intro nes hnes
    rw [listNetworkEndpoints_eq, hnes]
    rfl
  · intro showHealthStatus2 version2
    rw [listNetworkEndpoints_eq, listNetworkEndpoints_eq]
  · intro selfLink neg
    rw [listNetworkEndpoints_eq, storedEndpoints_create]
    rfl

/-- C6: `AttachNetworkEndpoints(name, zone, endpoints, version)` returns no error; afterwards
the collection stored for the pair is the one stored before (empty when the pair had none)
followed by `endpoints` in their order, so `ListNetworkEndpoints(name, zone)` succeeds,
whether or not a NEG was ever created for the pair. -/
theorem attachNetworkEndpoints_spec (f : FakeNetworkEndpointGroupCloud) (name zone : String)
    (endpoints : List NetworkEndpoint) (version : Version) :
    (f.AttachNetworkEndpoints name zone endpoints version).2 = none ∧
    storedEndpoints (f.AttachNetworkEndpoints name zone endpoints version).1 name zone =
      some ((storedEndpoints f name zone).getD [] ++ endpoints) ∧
    ∀ (showHealthStatus : Bool) (version2 : Version),
      (f.AttachNetworkEndpoints name zone endpoints version).1.ListNetworkEndpoints
          name zone showHealthStatus version2 =
        .ok (((storedEndpoints f name zone).getD [] ++ endpoints).map
          fun ne => { NetworkEndpoint := ne, Healths := [] }) := by
  refine ⟨rfl, storedEndpoints_attach f name zone endpoints version, ?_⟩
  intro showHealthStatus version2
  rw [listNetworkEndpoints_eq, storedEndpoints_attach]
  rfl

/-- C7: `DetachNetworkEndpoints(name, zone, endpoints, version)` returns no error; afterwards
the collection stored for the pair is the one stored before without the elements equal to
an element of `endpoints` (every occurrence of them), the others in their order; so no
stored endpoint equals a requested one after the call. -/
theorem detachNetworkEndpoints_spec (f : FakeNetworkEndpointGroupCloud) (name zone : String)
    (endpoints : List NetworkEndpoint) (version : Version) :
    (f.DetachNetworkEndpoints name zone endpoints version).2 = none ∧
    storedEndpoints (f.DetachNetworkEndpoints name zone endpoints version).1 name zone =
      some (((storedEndpoints f name zone).getD []).filter
        (fun ne => decide (ne ∉ endpoints))) ∧
    ∀ nes,
      storedEndpoints (f.DetachNetworkEndpoints name zone endpoints version).1 name zone =
        some nes →
      ∀ ne ∈ nes, ∀ remove ∈ endpoints, ne ≠ remove := by
  refine ⟨rfl, storedEndpoints_detach f name zone endpoints version, ?_⟩
  intro nes hnes ne hne remove hremove heq
  rw [storedEndpoints_detach] at hnes
  cases hnes
  have := (List.mem_filter.1 hne).2
  simp only [decide_eq_true_eq] at this
  exact this (heq ▸ hremove)

/-- C8, counterexample: on a new store nothing is stored for ("neg-a", "zone1"), so
no requested endpoint equals a stored one; `DetachNetworkEndpoints` returns no error, and
`ListNetworkEndpoints` returns `NotFoundError` before the call and the empty sequence after
it: the call is not a no-op on the listing. -/
theorem detach_untracked_counterexample :
    (∀ ne ∈ (storedEndpoints sampleStore "neg-a" "zone1").getD [],
      ∀ remove ∈ [sampleEndpoint1], ne ≠ remove) ∧
    (sampleStore.DetachNetworkEndpoints "neg-a" "zone1" [sampleEndpoint1] VersionGA).2 = none ∧
    sampleStore.ListNetworkEndpoints "neg-a" "zone1" false VersionGA =
      .error Error.NotFoundError ∧
    (sampleStore.DetachNetworkEndpoints "neg-a" "zone1" [sampleEndpoint1]
      VersionGA).1.ListNetworkEndpoints "neg-a" "zone1" false VersionGA = .ok [] ∧
    sampleStore.ListNetworkEndpoints "neg-a" "zone1" false VersionGA ≠
      (sampleStore.DetachNetworkEndpoints "neg-a" "zone1" [sampleEndpoint1]
        VersionGA).1.ListNetworkEndpoints "neg-a" "zone1" false VersionGA := by
  decide

/-- C8, amended: when no requested endpoint equals an endpoint stored for the pair,
`DetachNetworkEndpoints` returns no error; if the pair has a stored collection, that
collection and the result of `ListNetworkEndpoints(name, zone)` are the same before and
after; if the pair has none, the call installs an empty collection, and
`ListNetworkEndpoints(name, zone)`, `NotFoundError` before, returns the empty sequence. -/
theorem detach_absent_endpoints (f : FakeNetworkEndpointGroupCloud) (name zone : String)
    (endpoints : List NetworkEndpoint) (version : Version)
    (h : ∀ ne ∈ (storedEndpoints f name zone).getD [], ∀ remove ∈ endpoints, ne ≠ remove) :
    (f.DetachNetworkEndpoints name zone endpoints version).2 = none ∧
    (∀ nes, storedEndpoints f name zone = some nes →
      storedEndpoints (f.DetachNetworkEndpoints name zone endpoints version).1 name zone =
        some nes ∧
      ∀ (showHealthStatus : Bool) (version2 : Version),
        (f.DetachNetworkEndpoints name zone endpoints version).1.ListNetworkEndpoints
            name zone showHealthStatus version2 =
          f.ListNetworkEndpoints name zone showHealthStatus version2) ∧
    (storedEndpoints f name zone = none →
      ∀ (showHealthStatus : Bool) (version2 : Version),
        f.ListNetworkEndpoints name zone showHealthStatus version2 =
          .error Error.NotFoundError ∧
        (f.DetachNetworkEndpoints name zone endpoints version).1.ListNetworkEndpoints
            name zone showHealthStatus version2 = .ok []) := by
  have hfilter : ((storedEndpoints f name zone).getD []).filter
      (fun ne => decide (ne ∉ endpoints)) = (storedEndpoints f name zone).getD [] := by
    rw [List.filter_eq_self]
    intro ne hne
    simp only [decide_eq_true_eq]
    intro hmem
    exact h ne hne ne hmem rfl
  have hstored := storedEndpoints_detach f name zone endpoints version
  rw [hfilter] at hstored
  refine ⟨rfl, ?_, ?_⟩
  · intro nes hnes
    rw [hnes] at hstored
    refine ⟨hstored, ?_⟩
    intro showHealthStatus version2
    rw [listNetworkEndpoints_eq, listNetworkEndpoints_eq, hstored, hnes]
    rfl
  · intro hnone showHealthStatus version2
    rw [hnone] at hstored
    rw [listNetworkEndpoints_eq, listNetworkEndpoints_eq, hstored, hnone]
    exact ⟨rfl, rfl⟩

/-- C8, witness: with `sampleEndpoint1` attached to ("neg-a", "zone1"), detaching
`sampleEndpoint2` leaves the listing of the pair as it was. -/
theorem detach_absent_endpoints_witness :
    (∀ ne ∈ (storedEndpoints
        (sampleStore.AttachNetworkEndpoints "neg-a" "zone1" [sampleEndpoint1] VersionGA).1
        "neg-a" "zone1").getD [],
      ∀ remove ∈ [sampleEndpoint2], ne ≠ remove) ∧
    ((sampleStore.AttachNetworkEndpoints "neg-a" "zone1" [sampleEndpoint1]
        VersionGA).1.DetachNetworkEndpoints "neg-a" "zone1" [sampleEndpoint2]
        VersionGA).1.ListNetworkEndpoints "neg-a" "zone1" false VersionGA =
      (sampleStore.AttachNetworkEndpoints "neg-a" "zone1" [sampleEndpoint1]
        VersionGA).1.ListNetworkEndpoints "neg-a" "zone1" false VersionGA :=
  ⟨by decide,
    ((detach_absent_endpoints
      (sampleStore.AttachNetworkEndpoints "neg-a" "zone1" [sampleEndpoint1] VersionGA).1
      "neg-a" "zone1" [sampleEndpoint2] VersionGA (by decide)).2.1
      [sampleEndpoint1] (by decide)).2 false VersionGA⟩

/-- C9, counterexample: on a freshly created NEG, attaching the same endpoint twice and
detaching it once leaves the empty collection, while the multiset difference of the
attached and the detached endpoints still holds the endpoint once. -/
theorem attach_detach_multiset_counterexample :
    storedEndpoints
      (detachAll
        (attachAll (sampleStore.CreateNetworkEndpointGroup sampleSelfLink sampleNeg "zone1").1
          "neg-a" "zone1" VersionGA [[sampleEndpoint1, sampleEndpoint1]])
        "neg-a" "zone1" VersionGA [[sampleEndpoint1]])
      "neg-a" "zone1" = some [] ∧
    (([] : List NetworkEndpoint) : Multiset NetworkEndpoint) ≠
      (([[sampleEndpoint1, sampleEndpoint1]].flatten : List NetworkEndpoint) :
          Multiset NetworkEndpoint) -
        (([[sampleEndpoint1]].flatten : List NetworkEndpoint) : Multiset NetworkEndpoint) := by
  refine ⟨by decide, ?_⟩
  intro heq
  have hcard := congrArg Multiset.card heq
  simp at hcard

/-- C9, amended: on a freshly created NEG, after a sequence of attach calls with the
endpoint lists `attaches` and then a sequence of detach calls with the endpoint lists
`detaches`, the stored collection is the concatenation of the attached lists without every
endpoint equal to a detached one: a detached value disappears with all its occurrences,
any other value keeps the number of occurrences it was attached with. -/
theorem attach_detach_filter (selfLink : SelfLinkFn) (f : FakeNetworkEndpointGroupCloud)
    (neg : NetworkEndpointGroup) (zone : String) (version : Version)
    (attaches detaches : List (List NetworkEndpoint)) :
    ∃ nes,
      storedEndpoints
        (detachAll
          (attachAll (f.CreateNetworkEndpointGroup selfLink neg zone).1
            neg.Name zone version attaches)
          neg.Name zone version detaches)
        neg.Name zone = some nes ∧
      nes = attaches.flatten.filter (fun ne => decide (ne ∉ detaches.flatten)) ∧
      ∀ ne, nes.count ne =
        if ne ∈ detaches.flatten then 0 else attaches.flatten.count ne := by
  refine ⟨_, ?_, rfl, ?_⟩
  · have h1 := storedEndpoints_attachAll neg.Name zone version attaches _ _
      (storedEndpoints_create selfLink f neg zone)
    have h2 := storedEndpoints_detachAll neg.Name zone version detaches _ _ h1
    simpa using h2
  · intro ne
    by_cases hmem : ne ∈ detaches.flatten
    · rw [if_pos hmem, List.count_eq_zero]
      intro hin
      have := (List.mem_filter.1 hin).2
      simp only [decide_eq_true_eq] at this
      exact this hmem
    · rw [if_neg hmem, List.count_filter]
      simpa using hmem

/-- C10: `AggregatedListNetworkEndpointGroup` returns no error, and its result holds the
NEGs of the listings of all zones, none left out and none twice: the number of entries is
the sum of the lengths of the zones' sequences and every NEG value occurs as often as in
the zones' sequences together. The zones are the keys of `NetworkEndpointGroups` (the
sequence of any other zone is empty). The same holds for every order in which the map
iteration may visit the zones and every address the allocator may start from. -/
theorem aggregatedList_complete (f : FakeNetworkEndpointGroupCloud) (version : Version) :
    (∀ zone, f.ListNetworkEndpointGroup zone version = .ok (zoneNegs f zone)) ∧
    (∀ zone, zone ∉ f.NetworkEndpointGroups.keys → zoneNegs f zone = []) ∧
    (∃ result, f.AggregatedListNetworkEndpointGroup version = .ok result ∧
      (aggregatedNegs result).Perm (f.NetworkEndpointGroups.keys.flatMap (zoneNegs f)) ∧
      result.entries.length =
        (f.NetworkEndpointGroups.keys.map fun zone => (zoneNegs f zone).length).sum ∧
      ∀ neg, (aggregatedNegs result).count neg =
        (f.NetworkEndpointGroups.keys.map fun zone => (zoneNegs f zone).count neg).sum) ∧
    ∀ (order : List (Sigma fun _ : String => List NetworkEndpointGroup)) (base : Nat),
      order.Perm f.NetworkEndpointGroups.entries →
      (aggregatedNegs (aggregateZones order (base, ∅)).2).Perm
        (f.NetworkEndpointGroups.keys.flatMap (zoneNegs f)) := by
  have hany : ∀ (order : List (Sigma fun _ : String => List NetworkEndpointGroup))
      (base : Nat), order.Perm f.NetworkEndpointGroups.entries →
      (aggregatedNegs (aggregateZones order (base, ∅)).2).Perm
        (f.NetworkEndpointGroups.keys.flatMap (zoneNegs f)) := by
    intro order base horder
    have h := (aggregateZones_spec order (base, ∅) (addressesBelow_empty base)).2
    rw [keys_flatMap_zoneNegs]
    refine h.trans ?_
    simpa [aggregatedNegs] using horder.flatMap_right fun entry => entry.2
  have hperm := hany f.NetworkEndpointGroups.entries 0 (List.Perm.refl _)
  refine ⟨fun _ => rfl, zoneNegs_of_not_mem f, ⟨_, rfl, hperm, ?_, ?_⟩, hany⟩
  · have hlen := hperm.length_eq
    rw [aggregatedNegs, List.length_map] at hlen
    rw [hlen, List.flatMap_def, List.length_flatten, List.map_map]
    rfl
  · intro neg
    rw [hperm.count_eq, List.flatMap_def, List.count_flatten, List.map_map]
    rfl

/-- C11, counterexample: with NEGs "neg-a" and "neg-b" created in "zone1", the aggregated
listing has two entries for NEGs of different names whose keys have the same content, and
the name in that key is not the name of its NEG. -/
theorem aggregatedList_key_counterexample :
    ∃ result,
      ((sampleStore.CreateNetworkEndpointGroup sampleSelfLink sampleNeg
        "zone1").1.CreateNetworkEndpointGroup sampleSelfLink sampleNegB
        "zone1").1.AggregatedListNetworkEndpointGroup VersionGA = .ok result ∧
      ∃ p ∈ aggregatedEntries result, ∃ q ∈ aggregatedEntries result,
        p.2.Name ≠ q.2.Name ∧ p.1 = q.1 ∧ p.1.Name ≠ p.2.Name := by
  refine ⟨_, rfl, ?_⟩
  decide

/-- C11, amended: the key of an entry of the aggregated listing tells the zone of its NEG
and nothing else: for every entry `(key, neg)`, `key.Zone` is a zone whose sequence
contains `neg`, and `key.Name` and `key.Region` are empty; every NEG of every zone has such
an entry. So the keys of two entries have equal content exactly when the entries belong to
the same zone: entries of different zones never share a key content, entries of one zone
always do (they are told apart as pointers only). -/
theorem aggregatedList_keys (f : FakeNetworkEndpointGroupCloud) (version : Version) :
    ∃ result, f.AggregatedListNetworkEndpointGroup version = .ok result ∧
      (∀ (key : Key) (neg : NetworkEndpointGroup),
        (key, neg) ∈ aggregatedEntries result ↔
          key.Name = "" ∧ key.Region = "" ∧ key.Zone ∈ f.NetworkEndpointGroups.keys ∧
            neg ∈ zoneNegs f key.Zone) ∧
      ∀ p ∈ aggregatedEntries result, ∀ q ∈ aggregatedEntries result,
        (p.1 = q.1 ↔ p.1.Zone = q.1.Zone) := by
  refine ⟨_, rfl, mem_aggregatedEntries f 0, ?_⟩
  intro p hp q hq
  obtain ⟨hp1, hp2, -, -⟩ := (mem_aggregatedEntries f 0 p.1 p.2).1 hp
  obtain ⟨hq1, hq2, -, -⟩ := (mem_aggregatedEntries f 0 q.1 q.2).1 hq
  constructor
  · intro h
    rw [h]
  · intro h
    cases hpk : p.1
    cases hqk : q.1
    rw [hpk] at hp1 hp2 h
    rw [hqk] at hq1 hq2 h
    simp only at hp1 hp2 hq1 hq2 h
    subst hp1 hp2 hq1 hq2 h
    rfl

/-- C12, counterexample: the NEG object at address 0 is listed in "zone2" with the
self-link of "zone2"; the create of the same object in "zone1" writes the self-link of
"zone1" into it, so the objects the listing of "zone2" shows are not the ones it showed
before the create. -/
theorem create_zone_isolation_counterexample :
    "zone1" ≠ "zone2" ∧
    ∃ prev now,
      sampleCreatedOnce.2.ListNetworkEndpointGroup "zone2" VersionGA = .ok prev ∧
      (sampleCreatedOnce.2.CreateNetworkEndpointGroup sampleSelfLink sampleCreatedOnce.1 0
        "zone1").2.1.ListNetworkEndpointGroup "zone2" VersionGA = .ok now ∧
      now.map (sampleCreatedOnce.2.CreateNetworkEndpointGroup sampleSelfLink
          sampleCreatedOnce.1 0 "zone1").1 ≠
        prev.map sampleCreatedOnce.1 := by
  refine ⟨by decide, _, _, rfl, rfl, ?_⟩
  decide

/-- C12, amended: for zones `z1 ≠ z2`, `CreateNetworkEndpointGroup(A, z1)` leaves the
listing of `z2` the same sequence of pointers and `GetNetworkEndpointGroup(n, z2)` the same
pointer or error for every name `n`. The create writes the `SelfLink` of the object `A`
and nothing else: every other object is as before and `A` keeps its name; so when `A` is
not among the pointers of `z2`, the objects listed for `z2` are as before. When `z2` holds
no NEG named like `A`, the get of that name in `z2` still returns `NotFoundError`. -/
theorem create_zone_isolation (selfLink : SelfLinkFn)
    (f : Pointers.FakeNetworkEndpointGroupCloud) (mem : Memory) (A : Addr) (z1 z2 : String)
    (version : Version) (h : z1 ≠ z2) :
    (f.CreateNetworkEndpointGroup selfLink mem A z1).2.1.ListNetworkEndpointGroup z2 version =
      f.ListNetworkEndpointGroup z2 version ∧
    (∀ n : String,
      (f.CreateNetworkEndpointGroup selfLink mem A z1).2.1.GetNetworkEndpointGroup
          (f.CreateNetworkEndpointGroup selfLink mem A z1).1 n z2 version =
        f.GetNetworkEndpointGroup mem n z2 version) ∧
    (∀ other : Addr, other ≠ A →
      (f.CreateNetworkEndpointGroup selfLink mem A z1).1 other = mem other) ∧
    ((f.CreateNetworkEndpointGroup selfLink mem A z1).1 A).Name = (mem A).Name ∧
    (∀ ptrs, f.ListNetworkEndpointGroup z2 version = .ok ptrs → A ∉ ptrs →
      ptrs.map (f.CreateNetworkEndpointGroup selfLink mem A z1).1 = ptrs.map mem) ∧
    ((∀ a ∈ Pointers.zonePointers f z2, (mem a).Name ≠ (mem A).Name) →
      (f.CreateNetworkEndpointGroup selfLink mem A z1).2.1.GetNetworkEndpointGroup
          (f.CreateNetworkEndpointGroup selfLink mem A z1).1 (mem A).Name z2 version =
        .error Error.NotFoundError) := by
  have hz := pointers_zonePointers_create_other selfLink f mem A z1 z2 (Ne.symm h)
  have hget : ∀ n : String,
      (f.CreateNetworkEndpointGroup selfLink mem A z1).2.1.GetNetworkEndpointGroup
          (f.CreateNetworkEndpointGroup selfLink mem A z1).1 n z2 version =
        f.GetNetworkEndpointGroup mem n z2 version := by
    intro n
    rw [pointers_get_eq, pointers_get_eq, hz,
      pointers_getLoop_congr mem _ n _
        (fun a => pointers_memory_create_name selfLink f mem A a z1)]
  refine ⟨?_, hget, fun other ho => pointers_memory_create_other selfLink f mem A other z1 ho,
    pointers_memory_create_name selfLink f mem A A z1, ?_, ?_⟩
  · show Except.ok (Pointers.zonePointers _ z2) = Except.ok (Pointers.zonePointers f z2)
    rw [hz]
  · intro ptrs _ hfresh
    exact pointers_map_memory_create selfLink f mem A z1 ptrs hfresh
  · intro hnone
    rw [hget, pointers_get_eq, (pointers_getLoop_eq_none_iff _ _ _).2 hnone]

/-- C12, witness: with the object at address 1 listed in "zone2", the create of the object
at address 0 in "zone1" leaves the listing of "zone2", one pointer long, and the objects it
shows as they were. -/
theorem create_zone_isolation_witness :
    "zone1" ≠ "zone2" ∧
    sampleOtherCreated.2.ListNetworkEndpointGroup "zone2" VersionGA = .ok [1] ∧
    (sampleOtherCreated.2.CreateNetworkEndpointGroup sampleSelfLink sampleOtherCreated.1 0
      "zone1").2.1.ListNetworkEndpointGroup "zone2" VersionGA =
      sampleOtherCreated.2.ListNetworkEndpointGroup "zone2" VersionGA ∧
    [1].map (sampleOtherCreated.2.CreateNetworkEndpointGroup sampleSelfLink
        sampleOtherCreated.1 0 "zone1").1 = [1].map sampleOtherCreated.1 :=
  ⟨by decide, by decide,
    (create_zone_isolation sampleSelfLink sampleOtherCreated.2 sampleOtherCreated.1 0
      "zone1" "zone2" VersionGA (by decide)).1,
    (create_zone_isolation sampleSelfLink sampleOtherCreated.2 sampleOtherCreated.1 0
      "zone1" "zone2" VersionGA (by decide)).2.2.2.2.1 [1] (by decide) (by decide)⟩

/-- C13, evaluation at the failing input: the pairs ("c", "a-b") and ("b-c", "a") share the
key "a-b-c". After the creates of a NEG named "c" in zone "a-b" and of a NEG named "b-c" in zone "a",
the delete of "b-c" in "a" returns no error and removes the entry under the shared key: the
NEG "c" is still in the sequence of "a-b" while `ListNetworkEndpoints("c", "a-b")` returns
`NotFoundError`. -/
theorem tracked_collection_lost_on_key_collision :
    ((runOps sampleSelfLink sampleStore
      [Op.create { Name := "c", SelfLink := "", Description := "" } "a-b",
        Op.create { Name := "b-c", SelfLink := "", Description := "" } "a"]
      ).DeleteNetworkEndpointGroup "b-c" "a" VersionGA).2 = none ∧
    ∃ neg ∈ zoneNegs
        (runOps sampleSelfLink sampleStore
          [Op.create { Name := "c", SelfLink := "", Description := "" } "a-b",
            Op.create { Name := "b-c", SelfLink := "", Description := "" } "a",
            Op.delete "b-c" "a" VersionGA]) "a-b",
      neg.Name = "c" ∧
      (runOps sampleSelfLink sampleStore
        [Op.create { Name := "c", SelfLink := "", Description := "" } "a-b",
          Op.create { Name := "b-c", SelfLink := "", Description := "" } "a",
          Op.delete "b-c" "a" VersionGA]).ListNetworkEndpoints neg.Name "a-b" false VersionGA =
        .error Error.NotFoundError := by
  decide

/-- C14: for the resolver of `NewFakeZoneGetter` and every order in which the map iteration
may visit the two zones, `GetZoneForNode` returns "zone1" for instance1 and instance2,
"zone2" for instance3 to instance6 and `NotFoundError` for every other name; a returned
zone has the node in its set, and the error is returned exactly when no zone's set has the
node. The method as embedded is the loop on the entries list. -/
theorem getZoneForNode_spec (order : List (Sigma fun _ : String => List String))
    (horder : order.Perm NewFakeZoneGetter.zoneInstanceMap.entries) (name : String) :
    (name ∈ [TestInstance1, TestInstance2] → getZoneLoop name order = .ok TestZone1) ∧
    (name ∈ [TestInstance3, TestInstance4, TestInstance5, TestInstance6] →
      getZoneLoop name order = .ok TestZone2) ∧
    (name ∉ [TestInstance1, TestInstance2, TestInstance3, TestInstance4, TestInstance5,
        TestInstance6] →
      getZoneLoop name order = .error Error.NotFoundError) ∧
    (∀ zone, getZoneLoop name order = .ok zone →
      ∃ members, NewFakeZoneGetter.zoneInstanceMap.lookup zone = some members ∧
        name ∈ members) ∧
    (getZoneLoop name order = .error Error.NotFoundError ↔
      ∀ zone members, NewFakeZoneGetter.zoneInstanceMap.lookup zone = some members →
        name ∉ members) ∧
    NewFakeZoneGetter.GetZoneForNode name =
      getZoneLoop name NewFakeZoneGetter.zoneInstanceMap.entries := by
  have hmem : ∀ entry : Sigma fun _ : String => List String,
      entry ∈ order ↔
        entry = ⟨TestZone1, [TestInstance1, TestInstance2]⟩ ∨
        entry = ⟨TestZone2, [TestInstance3, TestInstance4, TestInstance5, TestInstance6]⟩ := by
    intro entry
    rw [horder.mem_iff, newFakeZoneGetter_entries]
    simp
  have hlookup : ∀ zone members,
      NewFakeZoneGetter.zoneInstanceMap.lookup zone = some members ↔
        (⟨zone, members⟩ : Sigma fun _ : String => List String) ∈ order := by
    intro zone members
    rw [horder.mem_iff]
    exact AList.mem_lookup_iff
  refine ⟨?_, ?_, ?_, ?_, ?_, rfl⟩
  · intro h1
    apply getZoneLoop_of_unique name TestZone1 [TestInstance1, TestInstance2] order
      ((hmem _).2 (Or.inl rfl)) h1
    intro entry hentry hname
    rcases (hmem entry).1 hentry with rfl | rfl
    · rfl
    · exfalso
      have hdisj : ∀ n ∈ [TestInstance1, TestInstance2],
          n ∉ [TestInstance3, TestInstance4, TestInstance5, TestInstance6] := by decide
      exact hdisj name h1 hname
  · intro h2
    apply getZoneLoop_of_unique name TestZone2
      [TestInstance3, TestInstance4, TestInstance5, TestInstance6] order
      ((hmem _).2 (Or.inr rfl)) h2
    intro entry hentry hname
    rcases (hmem entry).1 hentry with rfl | rfl
    · exfalso
      have hdisj : ∀ n ∈ [TestInstance3, TestInstance4, TestInstance5, TestInstance6],
          n ∉ [TestInstance1, TestInstance2] := by decide
      exact hdisj name h2 hname
    · rfl
  · intro hnot
    rw [getZoneLoop_error_iff]
    intro entry hentry hname
    apply hnot
    rcases (hmem entry).1 hentry with rfl | rfl
    · simp only [List.mem_cons] at hname ⊢
      tauto
    · simp only [List.mem_cons] at hname ⊢
      tauto
  · intro zone hzone
    obtain ⟨entry, hentry, h1, h2⟩ := getZoneLoop_ok name zone order hzone
    refine ⟨entry.2, (hlookup zone entry.2).2 ?_, h2⟩
    rw [← h1]
    exact hentry
  · rw [getZoneLoop_error_iff]
    constructor
    · intro h zone members hl
      exact h ⟨zone, members⟩ ((hlookup zone members).1 hl)
    · intro h entry hentry
      exact h entry.1 entry.2 ((hlookup entry.1 entry.2).2 hentry)

/-- C14, witness: in the order that visits "zone2" first, instance1 is still resolved
to "zone1". -/
theorem getZoneForNode_spec_witness :
    List.Perm
      [(⟨TestZone2, [TestInstance3, TestInstance4, TestInstance5, TestInstance6]⟩ :
          Sigma fun _ : String => List String),
        ⟨TestZone1, [TestInstance1, TestInstance2]⟩]
      NewFakeZoneGetter.zoneInstanceMap.entries ∧
    getZoneLoop "instance1"
      [(⟨TestZone2, [TestInstance3, TestInstance4, TestInstance5, TestInstance6]⟩ :
          Sigma fun _ : String => List String),
        ⟨TestZone1, [TestInstance1, TestInstance2]⟩] = .ok TestZone1 :=
  ⟨by rw [newFakeZoneGetter_entries]; exact List.Perm.swap _ _ _,
    (getZoneForNode_spec _ (by rw [newFakeZoneGetter_entries]; exact List.Perm.swap _ _ _)
      "instance1").1 (by decide)⟩

/-- C15: on a new store and for endpoints `e1 ≠ e2`: the create of a NEG named "neg-a" in
"zone1" returns no error; the attach of `[e1, e2]` returns no error; the listing of the
pair is then `[e1, e2]` in that order; the detach of `[e1]` returns no error; the listing
is then `[e2]`; the delete returns no error; and the get of "neg-a" in "zone1" then returns
`NotFoundError`. -/
theorem end_to_end_scenario (selfLink : SelfLinkFn) (subnetwork network : String)
    (e1 e2 : NetworkEndpoint) (version : Version) (h : e1 ≠ e2) :
    ((NewFakeNetworkEndpointGroupCloud subnetwork network).CreateNetworkEndpointGroup selfLink
      { Name := "neg-a", SelfLink := "", Description := "" } "zone1").2 = none ∧
    ((runOps selfLink (NewFakeNetworkEndpointGroupCloud subnetwork network)
      [Op.create { Name := "neg-a", SelfLink := "", Description := "" } "zone1"]
      ).AttachNetworkEndpoints "neg-a" "zone1" [e1, e2] version).2 = none ∧
    (runOps selfLink (NewFakeNetworkEndpointGroupCloud subnetwork network)
      [Op.create { Name := "neg-a", SelfLink := "", Description := "" } "zone1",
        Op.attach "neg-a" "zone1" [e1, e2] version]
      ).ListNetworkEndpoints "neg-a" "zone1" false version =
        .ok [{ NetworkEndpoint := e1, Healths := [] }, { NetworkEndpoint := e2, Healths := [] }] ∧
    ((runOps selfLink (NewFakeNetworkEndpointGroupCloud subnetwork network)
      [Op.create { Name := "neg-a", SelfLink := "", Description := "" } "zone1",
        Op.attach "neg-a" "zone1" [e1, e2] version]
      ).DetachNetworkEndpoints "neg-a" "zone1" [e1] version).2 = none ∧
    (runOps selfLink (NewFakeNetworkEndpointGroupCloud subnetwork network)
      [Op.create { Name := "neg-a", SelfLink := "", Description := "" } "zone1",
        Op.attach "neg-a" "zone1" [e1, e2] version,
        Op.detach "neg-a" "zone1" [e1] version]
      ).ListNetworkEndpoints "neg-a" "zone1" false version =
        .ok [{ NetworkEndpoint := e2, Healths := [] }] ∧
    ((runOps selfLink (NewFakeNetworkEndpointGroupCloud subnetwork network)
      [Op.create { Name := "neg-a", SelfLink := "", Description := "" } "zone1",
        Op.attach "neg-a" "zone1" [e1, e2] version,
        Op.detach "neg-a" "zone1" [e1] version]
      ).DeleteNetworkEndpointGroup "neg-a" "zone1" version).2 = none ∧
    (runOps selfLink (NewFakeNetworkEndpointGroupCloud subnetwork network)
      [Op.create { Name := "neg-a", SelfLink := "", Description := "" } "zone1",
        Op.attach "neg-a" "zone1" [e1, e2] version,
        Op.detach "neg-a" "zone1" [e1] version,
        Op.delete "neg-a" "zone1" version]
      ).GetNetworkEndpointGroup "neg-a" "zone1" version = .error Error.NotFoundError := by
  have hcreate := storedEndpoints_create selfLink
    (NewFakeNetworkEndpointGroupCloud subnetwork network)
    { Name := "neg-a", SelfLink := "", Description := "" } "zone1"
  have hattach := storedEndpoints_attach
    ((NewFakeNetworkEndpointGroupCloud subnetwork network).CreateNetworkEndpointGroup selfLink
      { Name := "neg-a", SelfLink := "", Description := "" } "zone1").1
    "neg-a" "zone1" [e1, e2] version
  rw [hcreate] at hattach
  have hdetach := storedEndpoints_detach
    ((((NewFakeNetworkEndpointGroupCloud subnetwork network).CreateNetworkEndpointGroup selfLink
      { Name := "neg-a", SelfLink := "", Description := "" } "zone1").1
      ).AttachNetworkEndpoints "neg-a" "zone1" [e1, e2] version).1
    "neg-a" "zone1" [e1] version
  rw [hattach] at hdetach
  have hfilter : List.filter (fun ne => decide (ne ∉ [e1])) [e1, e2] = [e2] := by
    simp [List.filter, Ne.symm h]
  simp only [Option.getD_some, List.nil_append, hfilter] at hattach hdetach
  refine ⟨rfl, rfl, ?_, rfl, ?_, ?_, ?_⟩
  · simp only [runOps, Op.apply]
    rw [listNetworkEndpoints_eq, hattach]
    rfl
  · simp only [runOps, Op.apply]
    rw [listNetworkEndpoints_eq, hdetach]
    rfl
  · simp only [runOps, Op.apply]
    rw [delete_succeeds_iff]
    have hmem : ({ Name := "neg-a"
                   SelfLink := selfLink "mock-project" "zone1" "neg-a" VersionAlpha
                   Description := "" } : NetworkEndpointGroup) ∈
        zoneNegs ((NewFakeNetworkEndpointGroupCloud subnetwork
          network).CreateNetworkEndpointGroup selfLink
          { Name := "neg-a", SelfLink := "", Description := "" } "zone1").1 "zone1" := by
      rw [zoneNegs_create]
      simp
    exact ⟨_, hmem, rfl⟩
  · simp only [runOps, Op.apply]
    exact get_after_delete _ _ _ _ _

/-- C15, witness: the scenario with `sampleEndpoint1` and `sampleEndpoint2`. -/
theorem end_to_end_scenario_witness :
    sampleEndpoint1 ≠ sampleEndpoint2 ∧
    (runOps sampleSelfLink (NewFakeNetworkEndpointGroupCloud "subnetwork" "network")
      [Op.create { Name := "neg-a", SelfLink := "", Description := "" } "zone1",
        Op.attach "neg-a" "zone1" [sampleEndpoint1, sampleEndpoint2] VersionGA,
        Op.detach "neg-a" "zone1" [sampleEndpoint1] VersionGA]
      ).ListNetworkEndpoints "neg-a" "zone1" false VersionGA =
        .ok [{ NetworkEndpoint := sampleEndpoint2, Healths := [] }] :=
  ⟨by decide,
    (end_to_end_scenario sampleSelfLink "subnetwork" "network" sampleEndpoint1 sampleEndpoint2
      VersionGA (by decide)).2.2.2.2.1⟩

/-- C16: `ListNetworkEndpointGroup(zone, version)` returns no error, and the pointers it
returns are the ones the creates put into the zone, in the order of the creates: after any
sequence of creates, deletes, attaches and detaches the listing is a subsequence of the
pointers stored before followed by the pointers created in the zone, in call order, and it
is all of them when no delete is among the calls. So on a new store the listing of a zone in
which no NEG was created is the empty sequence, whatever other calls were made, and every
zone of a new store lists the empty sequence. -/
theorem listNetworkEndpointGroup_insertion_order (selfLink : SelfLinkFn)
    (st : Memory × Pointers.FakeNetworkEndpointGroupCloud) (ops : List Pointers.Op)
    (zone : String) (version : Version) :
    (∃ ptrs,
      (Pointers.runOps selfLink st ops).2.ListNetworkEndpointGroup zone version = .ok ptrs ∧
      ptrs.Sublist (Pointers.zonePointers st.2 zone ++ Pointers.createdIn zone ops)) ∧
    ((∀ op ∈ ops, op.isDelete = false) →
      ∃ prev, st.2.ListNetworkEndpointGroup zone version = .ok prev ∧
        (Pointers.runOps selfLink st ops).2.ListNetworkEndpointGroup zone version =
          .ok (prev ++ Pointers.createdIn zone ops)) ∧
    (∀ (mem : Memory) (subnetwork network : String),
      Pointers.createdIn zone ops = [] →
      (Pointers.runOps selfLink
        (mem, Pointers.NewFakeNetworkEndpointGroupCloud subnetwork network)
        ops).2.ListNetworkEndpointGroup zone version = .ok []) ∧
    ∀ subnetwork network : String,
      (Pointers.NewFakeNetworkEndpointGroupCloud subnetwork
        network).ListNetworkEndpointGroup zone version = .ok [] := by
  refine ⟨⟨_, rfl, (pointers_zonePointers_runOps selfLink zone ops st).1⟩, ?_, ?_, ?_⟩
  · intro hops
    refine ⟨Pointers.zonePointers st.2 zone, rfl, ?_⟩
    show Except.ok (Pointers.zonePointers _ zone) = _
    rw [(pointers_zonePointers_runOps selfLink zone ops st).2 hops]
  · intro mem subnetwork network hnone
    have hsub := (pointers_zonePointers_runOps selfLink zone ops
      (mem, Pointers.NewFakeNetworkEndpointGroupCloud subnetwork network)).1
    rw [hnone] at hsub
    have hempty : Pointers.zonePointers
        (Pointers.NewFakeNetworkEndpointGroupCloud subnetwork network) zone = [] := rfl
    simp only [hempty, List.append_nil, List.sublist_nil] at hsub
    show Except.ok (Pointers.zonePointers _ zone) = _
    rw [hsub]
  · intro subnetwork network
    rfl

/-- C18: when `DeleteNetworkEndpointGroup(name, zone)` returns no error, the zone held a NEG
of that name, the zone's sequence afterwards is the previous one without the NEGs named
`name`, the others unchanged and in their order, and the sequence of every other zone is
the previous one. -/
theorem delete_frame (f : FakeNetworkEndpointGroupCloud) (name zone : String)
    (version : Version) (h : (f.DeleteNetworkEndpointGroup name zone version).2 = none) :
    (∃ neg ∈ zoneNegs f zone, neg.Name = name) ∧
    (∀ version2 : Version,
      (f.DeleteNetworkEndpointGroup name zone version).1.ListNetworkEndpointGroup
          zone version2 =
        .ok ((zoneNegs f zone).filter fun m => decide (m.Name ≠ name))) ∧
    ∀ (zone2 : String) (version2 : Version), zone2 ≠ zone →
      (f.DeleteNetworkEndpointGroup name zone version).1.ListNetworkEndpointGroup
          zone2 version2 =
        f.ListNetworkEndpointGroup zone2 version2 := by
  refine ⟨(delete_succeeds_iff f name zone version).1 h, ?_, ?_⟩
  · intro version2
    show Except.ok (zoneNegs _ zone) = _
    rw [zoneNegs_delete]
  · intro zone2 version2 hne
    show Except.ok (zoneNegs _ zone2) = Except.ok (zoneNegs f zone2)
    rw [zoneNegs_delete_other f name zone zone2 version hne]

/-- C18, witness: with "neg-a" and "neg-b" created in "zone1", the delete of "neg-a"
succeeds and leaves "neg-b" with its self-link. -/
theorem delete_frame_witness :
    ((createAll sampleSelfLink sampleStore "zone1"
      [sampleNeg, sampleNegB]).DeleteNetworkEndpointGroup "neg-a" "zone1" VersionGA).2 = none ∧
    ((createAll sampleSelfLink sampleStore "zone1"
      [sampleNeg, sampleNegB]).DeleteNetworkEndpointGroup "neg-a" "zone1"
      VersionGA).1.ListNetworkEndpointGroup "zone1" VersionGA =
      .ok ((zoneNegs (createAll sampleSelfLink sampleStore "zone1" [sampleNeg, sampleNegB])
        "zone1").filter fun m => decide (m.Name ≠ "neg-a")) :=
  ⟨by decide,
    (delete_frame (createAll sampleSelfLink sampleStore "zone1" [sampleNeg, sampleNegB])
      "neg-a" "zone1" VersionGA (by decide)).2.1 VersionGA⟩

/-- C19, evaluation at the failing input: the pairs ("b-c", "a") and ("c", "a-b") differ
and have the same key "a-b-c"; on a new store an attach to the first makes `ListNetworkEndpoints` of the
second, `NotFoundError` before, return the attached endpoint. -/
theorem endpoint_collections_share_key :
    (("b-c", "a") : String × String) ≠ ("c", "a-b") ∧
    networkEndpointKey "b-c" "a" = networkEndpointKey "c" "a-b" ∧
    sampleStore.ListNetworkEndpoints "c" "a-b" false VersionGA = .error Error.NotFoundError ∧
    (sampleStore.AttachNetworkEndpoints "b-c" "a" [sampleEndpoint1]
      VersionGA).1.ListNetworkEndpoints "c" "a-b" false VersionGA =
      .ok [{ NetworkEndpoint := sampleEndpoint1, Healths := [] }] := by
  decide

/-- C20, evaluation at the failing input: with `sampleEndpoint1` attached to
("neg-a", "zone1") and no NEG created, `DeleteNetworkEndpointGroup("neg-a", "zone1")`
returns `NotFoundError` and leaves the NEG map as it was, yet `ListNetworkEndpoints` of the
pair, which returned the endpoint before the call, returns `NotFoundError` after it: the
failed delete has removed the endpoint collection. -/
theorem delete_failure_discards_endpoints :
    ((sampleStore.AttachNetworkEndpoints "neg-a" "zone1" [sampleEndpoint1]
      VersionGA).1.DeleteNetworkEndpointGroup "neg-a" "zone1" VersionGA).2 =
      some Error.NotFoundError ∧
    ((sampleStore.AttachNetworkEndpoints "neg-a" "zone1" [sampleEndpoint1]
      VersionGA).1.DeleteNetworkEndpointGroup "neg-a" "zone1" VersionGA).1.NetworkEndpointGroups =
      (sampleStore.AttachNetworkEndpoints "neg-a" "zone1" [sampleEndpoint1]
        VersionGA).1.NetworkEndpointGroups ∧
    (sampleStore.AttachNetworkEndpoints "neg-a" "zone1" [sampleEndpoint1]
      VersionGA).1.ListNetworkEndpoints "neg-a" "zone1" false VersionGA =
      .ok [{ NetworkEndpoint := sampleEndpoint1, Healths := [] }] ∧
    ((sampleStore.AttachNetworkEndpoints "neg-a" "zone1" [sampleEndpoint1]
      VersionGA).1.DeleteNetworkEndpointGroup "neg-a" "zone1"
      VersionGA).1.ListNetworkEndpoints "neg-a" "zone1" false VersionGA =
      .error Error.NotFoundError :=
  ⟨by decide, rfl, by decide, by decide⟩

end NegTypes
